import Mathlib

/-!
Verification development for the Celeritas field-propagation core
(celeritas/field/FieldPropagator.hh, FieldSubstepper.hh,
detail/TrialSubstep.hh, FieldPropagatorData.hh).

The embedding is a shallow one over exact rational arithmetic:
`real_type` becomes `ℚ`, positions and momenta live in an arbitrary
`ℚ`-module `V` (instantiated with `ℚ` itself for concrete runs), and the
stateful geometry track view (GTV) becomes a record of pure functions on
an abstract state type `G`.  The adaptive field driver becomes a pure
function `advance : ℚ → OdeState V → DriverResult V`, matching the
deterministic contract of the spec.

A few collaborators referenced by the sources are not among the provided
files (celeritas/field/detail/FieldUtils.hh, corecel math helpers, and
the `Propagation` struct in Types.hh): those are modelled from the spec
and carry a doc comment saying so.
-/

set_option autoImplicit false
set_option linter.unusedSectionVars false
set_option linter.unnecessarySeqFocus false
set_option linter.unnecessarySimpa false

namespace Celeritas

/-- Geometry-tracker answer to a straight-line boundary query, and also the
result type returned by the propagator (celeritas `Propagation`).
Modelled from the spec: the struct itself is declared in `Types.hh`, which is
not among the provided sources; the spec data model gives
`{ distance: real ≥ 0, boundary: bool }` plus the `looping` flag used by the
propagator result, and value-initialization of the C++ struct yields
`distance = 0`, `boundary = false`, `looping = false`. -/
structure Propagation where
  distance : ℚ := 0
  boundary : Bool := false
  looping : Bool := false
  deriving Repr, DecidableEq

/-- ODE integration state: position and momentum vector (celeritas `OdeState`). -/
structure OdeState (V : Type) where
  pos : V
  mom : V
  deriving Repr, DecidableEq

/-- Result of the field driver: achieved arc length and end state
(celeritas `DriverResult`). -/
structure DriverResult (V : Type) where
  step : ℚ
  state : OdeState V
  deriving Repr, DecidableEq

/-- Straight segment between two points: length and direction
(celeritas `Chord`). -/
structure Chord (V : Type) where
  length : ℚ
  dir : V
  deriving Repr, DecidableEq

/-- Options of the field driver that the propagator reads
(celeritas `FieldDriverOptions`, fields used by `FieldPropagatorData.hh`). -/
structure FieldDriverOptions where
  delta_intersection : ℚ
  minimum_step : ℚ
  deriving Repr, DecidableEq

/-- Propagator options (celeritas `FieldPropagatorOptions`). -/
structure FieldPropagatorOptions where
  driver_options : FieldDriverOptions
  deriving Repr, DecidableEq

/-- Limit on substeps: `static constexpr short int max_substeps = 100`. -/
def FieldPropagatorOptions.max_substeps : ℤ := 100

/-- Distance close enough to a boundary to mark as being on the boundary. -/
def FieldPropagatorOptions.delta_intersection (o : FieldPropagatorOptions) : ℚ :=
  o.driver_options.delta_intersection

/-- Distance to bump or to consider a "zero" movement:
`delta_intersection() * real_type(0.1)`. -/
def FieldPropagatorOptions.bump_distance (o : FieldPropagatorOptions) : ℚ :=
  o.delta_intersection * (1 / 10)

/-- Smallest allowable inner loop distance to take. -/
def FieldPropagatorOptions.minimum_substep (o : FieldPropagatorOptions) : ℚ :=
  o.driver_options.minimum_step

section VectorUtils

variable {V : Type} [AddCommGroup V] [Module ℚ V]

/-- Modelled from the spec: `make_chord` lives in
celeritas/field/detail/FieldUtils.hh, which is not among the provided
sources.  The spec (section 4.3 and data model): the chord is the straight
segment between the two positions, `length` is the Euclidean distance and
`dir` the unit vector when the length is positive.  The norm is supplied as
the function `nrm`. -/
def make_chord (nrm : V → ℚ) (a b : V) : Chord V :=
  { length := nrm (b - a), dir := (nrm (b - a))⁻¹ • (b - a) }

/-- Modelled from the spec: `is_intercept_close` lives in
celeritas/field/detail/FieldUtils.hh, which is not among the provided
sources.  Spec 4.3: `is_intercept_close(origin, dir, t, target, eps)`
returns true iff the distance from `origin + t * dir` to `target` is at
most `eps`. -/
def is_intercept_close (nrm : V → ℚ) (origin dir : V) (t : ℚ) (target : V)
    (eps : ℚ) : Bool :=
  decide (nrm (origin + t • dir - target) ≤ eps)

/-- Modelled from the spec: `make_unit_vector` (corecel math helper, not
among the provided sources) rescales a nonzero vector to unit norm. -/
def make_unit_vector (nrm : V → ℚ) (v : V) : V :=
  (nrm v)⁻¹ • v

end VectorUtils

/-- Modelled from the spec: `soft_equal` (corecel/math/SoftEqual.hh, not
among the provided sources) holds when two values agree up to a small
relative tolerance.  The tolerance value is a fixed small constant; the
claims only use that it is far below any of the gaps exhibited. -/
def soft_equal (a b : ℚ) : Prop :=
  |a - b| ≤ (1 / 10 ^ 10) * max |a| |b|

instance soft_equal.decidable (a b : ℚ) : Decidable (soft_equal a b) := by
  unfold soft_equal
  exact inferInstance

/-- Interface of the geometry track view (GTV) used by the propagator
(spec section 6; celeritas/geo/MockGeoTrackView.hh).  Queries that mutate
the underlying per-track geometry state return the new state. -/
structure GeoOps (V G : Type) where
  pos : G → V
  dir : G → V
  is_on_boundary : G → Bool
  find_next_step : G → ℚ → Propagation × G
  find_safety : G → ℚ → ℚ × G
  set_dir : G → V → G
  move_internal : G → V → G
  move_to_boundary : G → G

namespace detail

/-- Result of a trial substep (celeritas `detail::TrialSubstep`): the data
computed by its constructor. -/
structure TrialSubstep (V : Type) where
  options : FieldPropagatorOptions
  start_pos : V
  start_boundary : Bool
  substep_ : DriverResult V
  chord_ : Chord V
  linear_step_ : Propagation
  scaled_substep_ : ℚ
  deriving Repr, DecidableEq

variable {V G : Type} [AddCommGroup V] [Module ℚ V]

/-- Constructor of `TrialSubstep`: build the chord from the start position
to the driver end point, query the next-step finder along it, and scale the
substep length by the intercept fraction along the chord
(`scaled_substep_ = (linear_step_.distance / chord_.length) * substep_.step`).
In exact rational arithmetic division by a zero chord length yields `0`
rather than an IEEE infinity or NaN; the degenerate-chord claim is treated
separately with an IEEE-style value model. -/
def TrialSubstep.make (nrm : V → ℚ) (options : FieldPropagatorOptions)
    (find_next_step : Chord V → G → Propagation × G) (start_pos : V)
    (start_boundary : Bool) (end_substep : DriverResult V) (g : G) :
    TrialSubstep V × G :=
  let chord := make_chord nrm start_pos end_substep.state.pos
  let lg := find_next_step chord g
  ({ options := options
     start_pos := start_pos
     start_boundary := start_boundary
     substep_ := end_substep
     chord_ := chord
     linear_step_ := lg.1
     scaled_substep_ := lg.1.distance / chord.length * end_substep.step },
   lg.2)

/-- Accessor: ODE state at the end of the trial. -/
def TrialSubstep.end_state (t : TrialSubstep V) : OdeState V := t.substep_.state

/-- Accessor: exact distance of the integrated substep. -/
def TrialSubstep.substep (t : TrialSubstep V) : ℚ := t.substep_.step

/-- Accessor: substep length scaled by the intercept/chord fraction. -/
def TrialSubstep.scaled_substep (t : TrialSubstep V) : ℚ := t.scaled_substep_

/-- The boundary is truly no further than the end of the step:
`linear_step_.distance <= chord_.length`. -/
def TrialSubstep.true_boundary (t : TrialSubstep V) : Bool :=
  decide (t.linear_step_.distance ≤ t.chord_.length)

/-- No boundary was found even after searching a bit beyond the chord. -/
def TrialSubstep.no_boundary (t : TrialSubstep V) : Bool :=
  !t.linear_step_.boundary

/-- The particle appears stuck on a boundary: starting on a boundary with
the reported intercept closer than the bump distance. -/
def TrialSubstep.stuck (t : TrialSubstep V) : Bool :=
  t.start_boundary && decide (t.linear_step_.distance < t.options.bump_distance)

/-- The distance to the boundary is almost the full substep. -/
def TrialSubstep.length_almost_boundary (t : TrialSubstep V) : Bool :=
  t.linear_step_.boundary && decide (t.scaled_substep_ ≤ t.options.minimum_substep)

/-- The intercept point is spatially close to the substep end point. -/
def TrialSubstep.endpoint_near_boundary (nrm : V → ℚ) (t : TrialSubstep V) : Bool :=
  t.linear_step_.boundary &&
    is_intercept_close nrm t.start_pos t.chord_.dir t.linear_step_.distance
      t.substep_.state.pos t.options.delta_intersection

/-- The substep length is so small that the chord length is zero. -/
def TrialSubstep.degenerate_chord (t : TrialSubstep V) : Bool :=
  decide (t.chord_.length = 0)

end detail

/-- Result of a substep iteration (celeritas `SubstepStatus`). -/
inductive SubstepStatus where
  | iterating
  | boundary
  | moved_internal
  | stuck
  | looping
  deriving Repr, DecidableEq

/-- State local to the propagator and modified by the substepper
(celeritas `GeoFieldState`). -/
structure GeoFieldState (V G : Type) where
  geo : G
  state : OdeState V
  boundary : Bool

section Substepper

variable {V G : Type} [AddCommGroup V] [Module ℚ V]

/-- Temporary data managed during field propagation (celeritas
`FieldSubstepper`).  The C++ struct holds a pointer to the
`GeoFieldState`; here the state is a field, and the options reference is a
field as well. -/
structure FieldSubstepper (V G : Type) where
  propagation_step_ : ℚ
  options_ : FieldPropagatorOptions
  state_ : GeoFieldState V G
  travelled_ : ℚ
  trial_substep_ : ℚ
  remaining_substeps_ : ℤ

/-- Status of the substep loop, re-evaluated after each transition. -/
def FieldSubstepper.status (s : FieldSubstepper V G) : SubstepStatus :=
  if s.trial_substep_ > s.options_.minimum_substep ∧ 0 < s.remaining_substeps_ then
    .iterating
  else if s.remaining_substeps_ = 0 ∧ s.travelled_ < s.propagation_step_ then
    .looping
  else if 0 < s.travelled_ then
    (if s.state_.boundary then .boundary else .moved_internal)
  else
    .stuck

/-- Transition `accept_internal`: no boundary intersection along the chord.
Commit the full driver end state, clear the boundary flag, account the
substep, reset the trial length to the remaining distance, move the
geometry, and use up one substep.  (The source line reads
`state_ = trial.end_state();` where `state_` is the pointer to the
`GeoFieldState`; the only type-correct reading, consistent with the
subsequent `state_->geo.move_internal(state_->state.pos)`, is assigning
the ODE state member.) -/
def FieldSubstepper.accept_internal (O : GeoOps V G) (s : FieldSubstepper V G)
    (trial : detail.TrialSubstep V) : FieldSubstepper V G :=
  { s with
    state_ :=
      { geo := O.move_internal s.state_.geo trial.end_state.pos
        state := trial.end_state
        boundary := false }
    travelled_ := s.travelled_ + trial.substep
    trial_substep_ := s.propagation_step_ - (s.travelled_ + trial.substep)
    remaining_substeps_ := s.remaining_substeps_ - 1 }

/-- Hit decision inside `accept_likely_boundary`: cross iff the intercept
is at or before the substep end point, or crossing stays within the
remaining distance budget, or the chord is degenerate. -/
def FieldSubstepper.hit_boundary (s : FieldSubstepper V G)
    (trial : detail.TrialSubstep V) : Bool :=
  trial.true_boundary
    || decide (s.travelled_ + trial.scaled_substep ≤ s.trial_substep_)
    || trial.degenerate_chord

/-- Transition `accept_likely_boundary`: the substep ended at or just past
a surface.  If the hit decision is negative, commit only the curved end
position via `move_internal`; in both cases commit the end momentum, add
`min(scaled_substep, substep)` to the travelled distance, and zero the
trial substep to end the search.  Note that the boundary flag of the
`GeoFieldState` is never written here. -/
def FieldSubstepper.accept_likely_boundary (O : GeoOps V G)
    (s : FieldSubstepper V G) (trial : detail.TrialSubstep V) :
    FieldSubstepper V G :=
  let st :=
    if s.hit_boundary trial then s.state_
    else
      { geo := O.move_internal s.state_.geo trial.end_state.pos
        state := { s.state_.state with pos := trial.end_state.pos }
        boundary := s.state_.boundary }
  { s with
    state_ := { st with state := { st.state with mom := trial.end_state.mom } }
    travelled_ := s.travelled_ + min trial.scaled_substep trial.substep
    trial_substep_ := 0 }

/-- Transition `retry_stuck`: halve the trial substep and retry; no state
advance, no substep used. -/
def FieldSubstepper.retry_stuck (s : FieldSubstepper V G)
    (trial : detail.TrialSubstep V) : FieldSubstepper V G :=
  { s with trial_substep_ := trial.substep / 2 }

/-- Transition `retry_hit` (called `update_trial_step` at the propagator
dispatch): shrink the trial substep to the scaled intercept estimate; no
state advance, no substep used.  The C++ code asserts
`trial.scaled_substep() < trial_substep_`. -/
def FieldSubstepper.retry_hit (s : FieldSubstepper V G)
    (trial : detail.TrialSubstep V) : FieldSubstepper V G :=
  { s with trial_substep_ := trial.scaled_substep }

/-- Terminal handling `cross_boundary`: snap the geometry to the boundary,
copy its position into the ODE state, and set the boundary flag. -/
def FieldSubstepper.cross_boundary (O : GeoOps V G) (s : FieldSubstepper V G) :
    FieldSubstepper V G :=
  let g := O.move_to_boundary s.state_.geo
  { s with
    state_ := { geo := g, state := { s.state_.state with pos := O.pos g },
                boundary := true } }

/-- Terminal handling `restore_direction`: update the geometry direction
from the momentum so that the exit direction conserves momentum.  (In the
provided `FieldPropagator.hh` source this is invoked through the call
written `substepper.bump()`; `restore_direction` is the only member with
the matching role, and the precondition comment of `unstick` confirms the
direction has been restored before it runs.) -/
def FieldSubstepper.restore_direction (nrm : V → ℚ) (O : GeoOps V G)
    (s : FieldSubstepper V G) : FieldSubstepper V G :=
  { s with
    state_ :=
      { s.state_ with
        geo := O.set_dir s.state_.geo (make_unit_vector nrm s.state_.state.mom) } }

/-- Terminal handling `unstick`: no movement was possible, so bump the
particle along the just-restored geometry direction by
`min(bump_distance, propagation_step)`, move internally, and clear the
boundary flag. -/
def FieldSubstepper.unstick (O : GeoOps V G) (s : FieldSubstepper V G) :
    FieldSubstepper V G :=
  let t := min s.options_.bump_distance s.propagation_step_
  let p := t • O.dir s.state_.geo + s.state_.state.pos
  { s with
    travelled_ := t
    state_ :=
      { geo := O.move_internal s.state_.geo p
        state := { s.state_.state with pos := p }
        boundary := false } }

/-- Terminal handling `fixup_internal_step`: if the travelled distance fell
(slightly) short of the requested step, snap it to the step so the action
is not erroneously propagation limited. -/
def FieldSubstepper.fixup_internal_step (s : FieldSubstepper V G) :
    FieldSubstepper V G :=
  if s.travelled_ < s.propagation_step_ then
    { s with travelled_ := s.propagation_step_ }
  else s

/-- Base next-step finder (celeritas `NextStepFinder`): set the geometry
direction to the chord direction when the chord is long enough, then query
the next straight-line step over the chord length extended by
`delta_intersection`. -/
def NextStepFinder (O : GeoOps V G) (options : FieldPropagatorOptions)
    (chord : Chord V) (g : G) : Propagation × G :=
  let g :=
    if chord.length ≥ options.minimum_substep then O.set_dir g chord.dir else g
  O.find_next_step g (chord.length + options.delta_intersection)

/-- Result of the safety-accelerated finder: the propagation answer, the
geometry state, and the updated safety credit. -/
structure SafetyFindResult (G : Type) where
  prop : Propagation
  geo : G
  safety : ℚ

/-- Safety update of the accelerated finder: subtract the search distance
from the credit; if it went negative and the track is not on a boundary,
refresh it from `find_safety(search_dist + delta_intersection)` minus the
search distance. -/
def refreshed_safety (O : GeoOps V G) (options : FieldPropagatorOptions)
    (chord : Chord V) (g : G) (safety : ℚ) : ℚ × G :=
  let search_dist := chord.length + options.delta_intersection
  if safety - search_dist < 0 ∧ O.is_on_boundary g = false then
    let sg := O.find_safety g (search_dist + options.delta_intersection)
    (sg.1 - search_dist, sg.2)
  else
    (safety - search_dist, g)

/-- Safety-accelerated next-step finder (celeritas `NextStepSafetyFinder`):
when the refreshed safety credit is positive, skip the boundary query and
return a value-initialized `Propagation` with the boundary flag cleared;
otherwise set the chord direction and do the full query. -/
def NextStepSafetyFinder (O : GeoOps V G) (options : FieldPropagatorOptions)
    (chord : Chord V) (g : G) (safety : ℚ) : SafetyFindResult G :=
  let search_dist := chord.length + options.delta_intersection
  let sg := refreshed_safety O options chord g safety
  if 0 < sg.1 then
    { prop := { boundary := false }, geo := sg.2, safety := sg.1 }
  else
    let g1 := O.set_dir sg.2 chord.dir
    let pg := O.find_next_step g1 search_dist
    { prop := pg.1, geo := pg.2, safety := sg.1 }

end Substepper

section Propagator

variable {V G : Type} [AddCommGroup V] [Module ℚ V]

/-- Collaborators of one propagator invocation: the norm on `V`, the
geometry track view operations, the field driver, and the options.  The
driver is a pure function, matching the determinism stated by the spec. -/
structure PropEnv (V G : Type) where
  nrm : V → ℚ
  O : GeoOps V G
  advance : ℚ → OdeState V → DriverResult V
  options : FieldPropagatorOptions

/-- Which transition the propagator dispatch selects for a trial substep.
The order of tests follows `FieldPropagator::operator()`. -/
inductive DispatchKind where
  | to_accept_internal
  | to_retry_stuck
  | to_accept_likely_boundary
  | to_retry_hit
  deriving Repr, DecidableEq

/-- Dispatch decision of the propagator loop body. -/
def dispatch_kind (nrm : V → ℚ) (t : detail.TrialSubstep V) : DispatchKind :=
  if t.no_boundary then .to_accept_internal
  else if t.stuck then .to_retry_stuck
  else if t.length_almost_boundary || t.endpoint_near_boundary nrm
      || t.degenerate_chord then .to_accept_likely_boundary
  else .to_retry_hit

/-- The trial substep built in the loop body: invoke the driver on the
current trial substep and construct the `TrialSubstep`, threading the
geometry through the base next-step finder. -/
def trial_of (E : PropEnv V G) (s : FieldSubstepper V G) :
    detail.TrialSubstep V × G :=
  detail.TrialSubstep.make E.nrm E.options
    (fun c g => NextStepFinder E.O E.options c g)
    s.state_.state.pos s.state_.boundary
    (E.advance s.trial_substep_ s.state_.state) s.state_.geo

/-- Replace the geometry inside the substepper state (the finder queries
mutate the shared geometry track state). -/
def with_geo (s : FieldSubstepper V G) (g : G) : FieldSubstepper V G :=
  { s with state_ := { s.state_ with geo := g } }

/-- One iteration of the substep loop: build the trial substep and apply
the dispatched transition. -/
def substep_iter (E : PropEnv V G) (s : FieldSubstepper V G) :
    FieldSubstepper V G :=
  let tg := trial_of E s
  match dispatch_kind E.nrm tg.1 with
  | .to_accept_internal => (with_geo s tg.2).accept_internal E.O tg.1
  | .to_retry_stuck => (with_geo s tg.2).retry_stuck tg.1
  | .to_accept_likely_boundary =>
    (with_geo s tg.2).accept_likely_boundary E.O tg.1
  | .to_retry_hit => (with_geo s tg.2).retry_hit tg.1

/-- Run the substep loop with the do-while shape of the source: the local
status variable is initialized to `iterating` and only recomputed after
each body (`status = substepper.status()`), so the body always executes at
least once, and execution continues while the recomputed status is
`iterating`.  `substep_run E n s` performs between `1` and `n + 1` bodies
(the C++ loop has no fuel; claims about terminal behavior are stated for
runs whose final status is not `iterating`). -/
def substep_run (E : PropEnv V G) : ℕ → FieldSubstepper V G → FieldSubstepper V G
  | 0, s => substep_iter E s
  | n + 1, s =>
    if (substep_iter E s).status = .iterating then
      substep_run E n (substep_iter E s)
    else substep_iter E s

/-- Initial substepper state of `propagate(step)`: the ODE position copied
from the geometry, the momentum set to the particle momentum magnitude
times the geometry direction, the boundary flag synchronized with the
geometry (the loop entry assertion), the full step as the first trial, and
`max_substeps` remaining. -/
def init_substepper (E : PropEnv V G) (g0 : G) (p0 : ℚ) (step : ℚ) :
    FieldSubstepper V G :=
  { propagation_step_ := step
    options_ := E.options
    state_ :=
      { geo := g0
        state := { pos := E.O.pos g0, mom := p0 • E.O.dir g0 }
        boundary := E.O.is_on_boundary g0 }
    travelled_ := 0
    trial_substep_ := step
    remaining_substeps_ := FieldPropagatorOptions.max_substeps }

/-- Terminal handling after the loop, keyed on the loop exit status: cross
the boundary or fix up the internal step, always restore the direction, and
unstick if the loop made no progress.  (The source spells the first test
`status == Status::move_to_boundary`; the status enum only has `boundary`,
which is the state in which `cross_boundary` calls `move_to_boundary`, so
that is the value tested here.) -/
def finalize (E : PropEnv V G) (s : FieldSubstepper V G) :
    FieldSubstepper V G :=
  let st := s.status
  let s :=
    if st = .boundary then s.cross_boundary E.O
    else if st = .moved_internal then s.fixup_internal_step
    else s
  let s := s.restore_direction E.nrm E.O
  if st = .stuck then s.unstick E.O else s

/-- The propagator `operator()(real_type)`: run the substep loop (up to the
given fuel), apply the terminal handling, and package the result.  Returns
the result together with the final substepper state. -/
def propagate (E : PropEnv V G) (fuel : ℕ) (g0 : G) (p0 : ℚ) (step : ℚ) :
    Propagation × FieldSubstepper V G :=
  let sl := substep_run E fuel (init_substepper E g0 p0 step)
  let st := sl.status
  let sf := finalize E sl
  ({ distance := sf.travelled_
     boundary := sf.state_.boundary
     looping := decide (st = .looping) }, sf)

end Propagator

section Contracts

variable {V G : Type} [AddCommGroup V] [Module ℚ V]

/-- Properties of the norm function needed by the propagator reasoning:
norms are nonnegative and absolutely homogeneous. -/
structure NrmLaws (nrm : V → ℚ) : Prop where
  nonneg : ∀ v : V, 0 ≤ nrm v
  smul_abs : ∀ (c : ℚ) (v : V), nrm (c • v) = |c| * nrm v

/-- Contract of the geometry track view (spec section 6): boundary queries
stay within their cap and are nonnegative; queries do not move the track;
`set_dir` stores the direction; `move_internal` repositions off the
boundary; `move_to_boundary` lands on the boundary. -/
structure GeoContracts (O : GeoOps V G) : Prop where
  fns_le : ∀ (g : G) (m : ℚ), 0 ≤ m → (O.find_next_step g m).1.distance ≤ m
  fns_nonneg : ∀ (g : G) (m : ℚ), 0 ≤ m → 0 ≤ (O.find_next_step g m).1.distance
  fns_pos : ∀ (g : G) (m : ℚ), O.pos (O.find_next_step g m).2 = O.pos g
  fns_onb : ∀ (g : G) (m : ℚ),
    O.is_on_boundary (O.find_next_step g m).2 = O.is_on_boundary g
  set_dir_pos : ∀ (g : G) (v : V), O.pos (O.set_dir g v) = O.pos g
  set_dir_onb : ∀ (g : G) (v : V),
    O.is_on_boundary (O.set_dir g v) = O.is_on_boundary g
  set_dir_dir : ∀ (g : G) (v : V), O.dir (O.set_dir g v) = v
  move_internal_pos : ∀ (g : G) (p : V), O.pos (O.move_internal g p) = p
  move_internal_onb : ∀ (g : G) (p : V),
    O.is_on_boundary (O.move_internal g p) = false
  move_to_boundary_onb : ∀ g : G,
    O.is_on_boundary (O.move_to_boundary g) = true

/-- Contract of the field driver (spec section 4.5): for a positive
requested trial the achieved step is positive and no larger than the
request. -/
structure DriverContract (advance : ℚ → OdeState V → DriverResult V) : Prop where
  step_pos : ∀ (t : ℚ) (s : OdeState V), 0 < t → 0 < (advance t s).step
  step_le : ∀ (t : ℚ) (s : OdeState V), 0 < t → (advance t s).step ≤ t

/-- All contracts assumed of a propagator environment: norm laws, geometry
contract, driver contract, and positive surface tolerance with nonnegative
minimum substep. -/
def ContractsHold (E : PropEnv V G) : Prop :=
  NrmLaws E.nrm ∧ GeoContracts E.O ∧ DriverContract E.advance ∧
    0 < E.options.delta_intersection ∧ 0 ≤ E.options.minimum_substep

end Contracts

section ConcreteInstances

/-- Concrete one-dimensional geometry state used for witnesses and
counterexamples: a position, a direction, and an on-boundary flag.
This plays the role of the mock GTV state of
celeritas/geo/MockGeoTrackView.hh. -/
structure MockGeo where
  x : ℚ
  d : ℚ
  onb : Bool
  deriving Repr, DecidableEq

/-- Build a one-dimensional GTV from a boundary-query response function and
a safety response function. -/
def mkGeoOps (f : MockGeo → ℚ → Propagation) (fs : MockGeo → ℚ → ℚ) :
    GeoOps ℚ MockGeo :=
  { pos := fun g => g.x
    dir := fun g => g.d
    is_on_boundary := fun g => g.onb
    find_next_step := fun g m => (f g m, g)
    find_safety := fun g m => (fs g m, g)
    set_dir := fun g v => { g with d := v }
    move_internal := fun g p => { x := p, d := g.d, onb := false }
    move_to_boundary := fun g => { g with onb := true } }

/-- Driver that achieves the full requested step without moving the state:
a degenerate but contract-satisfying driver. -/
def idleDriver : ℚ → OdeState ℚ → DriverResult ℚ :=
  fun t s => { step := t, state := s }

/-- Options with the given surface tolerance and minimum substep. -/
def mkOptions (delta min_s : ℚ) : FieldPropagatorOptions :=
  { driver_options := { delta_intersection := delta, minimum_step := min_s } }

/-- One-dimensional geometry that never reports a boundary: every query
returns its cap with the boundary flag clear. -/
def freeOps : GeoOps ℚ MockGeo :=
  mkGeoOps (fun _ m => { distance := m, boundary := false }) (fun _ m => m)

/-- Environment with the free geometry and the idle driver. -/
def freeEnv (delta min_s : ℚ) : PropEnv ℚ MockGeo :=
  { nrm := fun q => |q|
    O := freeOps
    advance := idleDriver
    options := mkOptions delta min_s }

/-- Driver of the non-terminating counterexample environment: achieve the
full requested trial but report an end position whose straight-line
distance from the start, `4 t / (t - 1)`, is far larger than the arc
length `t`.  This satisfies the driver contract stated by the claim
(`0 < step <= requested trial`). -/
def stretchDriver : ℚ → OdeState ℚ → DriverResult ℚ :=
  fun t s => { step := t, state := { pos := s.pos + 4 * t / (t - 1), mom := s.mom } }

/-- Geometry of the non-terminating counterexample: always report a
boundary, at distance `cap - 3` (clamped at zero).  Every reported
distance is within the query cap and nonnegative. -/
def shaveOps : GeoOps ℚ MockGeo :=
  mkGeoOps (fun _ m => { distance := max 0 (m - 3), boundary := true })
    (fun _ m => m)

/-- Counterexample environment for the termination claim: one-dimensional
geometry that always reports a boundary just inside the cap, driver that
stretches the chord.  The substep loop keeps selecting `retry_hit` and the
trial substep decreases forever while staying above the minimum substep. -/
def shaveEnv : PropEnv ℚ MockGeo :=
  { nrm := fun q => |q|
    O := shaveOps
    advance := stretchDriver
    options := mkOptions 1 1 }

/-- Initial state of the non-terminating run: position 0, direction 1, not
on a boundary, unit momentum, step request 2. -/
def shaveInit : FieldSubstepper ℚ MockGeo :=
  init_substepper shaveEnv { x := 0, d := 1, onb := false } 1 2

/-- Substepper state reached by the non-terminating run: only the trial
substep differs from the initial state. -/
def shaveState (t : ℚ) : FieldSubstepper ℚ MockGeo :=
  { shaveInit with trial_substep_ := t }

/-- Trial-substep sequence of the non-terminating run: halve the distance
to 1 at every step, starting from `t`. -/
def shaveSeq (t : ℚ) : ℕ → ℚ
  | 0 => t
  | n + 1 => shaveSeq ((t + 1) / 2) n

/-- Geometry whose only surface is at `x = 100`, used to compare the base
and the safety-accelerated next-step finders on equal footing: safety
queries return the true distance to that surface (capped), and boundary
queries report it when within the cap. -/
def farOps : GeoOps ℚ MockGeo :=
  mkGeoOps
    (fun g m =>
      if max 0 (100 - g.x) ≤ m then
        { distance := max 0 (100 - g.x), boundary := true }
      else { distance := m, boundary := false })
    (fun g m => min m (max 0 (100 - g.x)))

/-- Geometry state with an extra field recording the cap passed to the
last `find_safety` query, used to exhibit the actual refresh cap. -/
structure RecGeo where
  x : ℚ
  d : ℚ
  onb : Bool
  lastcap : ℚ
  deriving Repr, DecidableEq

/-- Recording variant of the GTV: `find_safety` stores its cap argument
in the state and returns a large safety. -/
def recOps : GeoOps ℚ RecGeo :=
  { pos := fun g => g.x
    dir := fun g => g.d
    is_on_boundary := fun g => g.onb
    find_next_step := fun g m => ({ distance := max 0 m, boundary := false }, g)
    find_safety := fun g m => (1000, { g with lastcap := m })
    set_dir := fun g v => { g with d := v }
    move_internal := fun g p => { g with x := p, onb := false }
    move_to_boundary := fun g => { g with onb := true } }

/-- Geometry answering every boundary query with a hit at distance zero,
used for the degenerate-chord dispatch counterexample. -/
def zeroHitOps : GeoOps ℚ MockGeo :=
  mkGeoOps (fun _ _ => { distance := 0, boundary := true }) (fun _ m => m)

/-- Environment of a genuinely stuck track: it starts on a boundary and
every geometry query reports another boundary at distance zero (closer
than the bump distance), so each loop body classifies the trial as `stuck`
and halves it until the status test fails; the loop then exits with zero
travelled distance and the propagator applies the bump heuristic. -/
def stuckEnv (delta min_s : ℚ) : PropEnv ℚ MockGeo :=
  { nrm := fun q => |q|
    O := zeroHitOps
    advance := idleDriver
    options := mkOptions delta min_s }

/-- Geometry answering every boundary query with a hit at half the cap,
used for the degenerate-chord amended witness. -/
def halfOps : GeoOps ℚ MockGeo :=
  mkGeoOps (fun _ m => { distance := m / 2, boundary := true }) (fun _ m => m)

/-- Sample trial substep used by witnesses: boundary reported at half the
chord, start off boundary. -/
def sampleTrial : detail.TrialSubstep ℚ :=
  { options := mkOptions 1 1
    start_pos := 0
    start_boundary := false
    substep_ := { step := 2, state := { pos := 4, mom := 3 } }
    chord_ := { length := 4, dir := 1 }
    linear_step_ := { distance := 2, boundary := true }
    scaled_substep_ := 1 }

/-- Sample substepper state used by witnesses: the initial state of a
step-8 propagation in the free environment, on a boundary. -/
def sampleSub : FieldSubstepper ℚ MockGeo :=
  init_substepper (freeEnv 1 1) { x := 0, d := 1, onb := true } 1 8

/-- Degenerate trial built through the classifier constructor: the driver
end position equals the start position, the track starts on a boundary,
and the geometry still reports a boundary at distance zero within the
overreach. -/
def degTrial : detail.TrialSubstep ℚ :=
  (detail.TrialSubstep.make (fun q : ℚ => |q|) (mkOptions 1 1)
    (fun c g => NextStepFinder zeroHitOps (mkOptions 1 1) c g)
    0 true { step := 1, state := { pos := 0, mom := 1 } }
    { x := 0, d := 0, onb := true }).1

/-- Degenerate trial with positive reported intercept distance and the
track off the boundary, for the amended degenerate-chord claim. -/
def degTrialW : detail.TrialSubstep ℚ :=
  (detail.TrialSubstep.make (fun q : ℚ => |q|) (mkOptions 1 1)
    (fun c g => NextStepFinder halfOps (mkOptions 1 1) c g)
    0 false { step := 1, state := { pos := 0, mom := 1 } }
    { x := 0, d := 0, onb := false }).1

end ConcreteInstances

section IEEEModel

/-- Value model of IEEE double arithmetic for the degenerate-chord path:
a finite rational, a signed infinity, or NaN.  Only the operations used by
`scaled_substep_` and the `accept_likely_boundary` travelled update are
modelled. -/
inductive FReal where
  | fin (q : ℚ)
  | pinf
  | ninf
  | nan
  deriving Repr, DecidableEq

/-- IEEE division: finite by finite nonzero is exact; finite nonzero by
zero is a signed infinity; zero by zero is NaN. -/
def FReal.fdiv : FReal → FReal → FReal
  | .fin a, .fin b =>
    if b = 0 then
      if 0 < a then .pinf else if a < 0 then .ninf else .nan
    else .fin (a / b)
  | _, _ => .nan

/-- IEEE multiplication by a finite value, sufficient for
`(distance / length) * step` with a finite positive step. -/
def FReal.fmul : FReal → FReal → FReal
  | .fin a, .fin b => .fin (a * b)
  | .pinf, .fin b => if 0 < b then .pinf else if b < 0 then .ninf else .nan
  | .ninf, .fin b => if 0 < b then .ninf else if b < 0 then .pinf else .nan
  | _, _ => .nan

/-- IEEE addition of the cases reachable in the travelled update. -/
def FReal.fadd : FReal → FReal → FReal
  | .fin a, .fin b => .fin (a + b)
  | .pinf, .fin _ => .pinf
  | .ninf, .fin _ => .ninf
  | .fin _, .pinf => .pinf
  | .fin _, .ninf => .ninf
  | _, _ => .nan

/-- IEEE less-than: comparisons involving NaN are false. -/
def FReal.flt : FReal → FReal → Bool
  | .fin a, .fin b => decide (a < b)
  | .fin _, .pinf => true
  | .ninf, .fin _ => true
  | .ninf, .pinf => true
  | _, _ => false

/-- The celeritas `min(a, b)` written as in corecel/math/Algorithms.hh,
`b < a ? b : a`, over the IEEE value model. -/
def FReal.cxx_min (a b : FReal) : FReal :=
  if FReal.flt b a then b else a

/-- The `scaled_substep_` computation of `TrialSubstep` evaluated in the
IEEE value model: `(linear_step_.distance / chord_.length) * substep_.step`. -/
def scaled_substep_ieee (dist len step : ℚ) : FReal :=
  FReal.fmul (FReal.fdiv (.fin dist) (.fin len)) (.fin step)

/-- The travelled update of `accept_likely_boundary` evaluated in the IEEE
value model: `travelled + min(scaled_substep, substep)`. -/
def travelled_update_ieee (travelled dist len step : ℚ) : FReal :=
  FReal.fadd (.fin travelled)
    (FReal.cxx_min (scaled_substep_ieee dist len step) (.fin step))

end IEEEModel

section TerminationMeasure

/-- Lower bound on the decrease of the trial substep on every retry
transition: `retry_hit` shrinks it by more than `delta_intersection` and
`retry_stuck` at least halves it from above `minimum_substep`. -/
def FieldPropagatorOptions.decr (o : FieldPropagatorOptions) : ℚ :=
  min o.delta_intersection (o.minimum_substep / 2)

/-- Number of retry transitions that can fit between `q` and the minimum
substep when each one decreases the trial by at least `decr`. -/
def FieldPropagatorOptions.rsteps (o : FieldPropagatorOptions) (q : ℚ) : ℕ :=
  (Int.ceil ((q - o.minimum_substep) / o.decr)).toNat

/-- Termination measure of the substep loop: each accepted substep spends
one block of `rsteps o step + 1`, and each retry decreases the retry
budget inside the current block. -/
def loop_measure (o : FieldPropagatorOptions) {V G : Type}
    (s : FieldSubstepper V G) : ℕ :=
  s.remaining_substeps_.toNat * (o.rsteps s.propagation_step_ + 1)
    + o.rsteps s.trial_substep_

/-- Fuel sufficient for the substep loop to leave the `iterating` status
under the chord-bounded driver contract. -/
def fuel_bound (o : FieldPropagatorOptions) (step : ℚ) : ℕ :=
  FieldPropagatorOptions.max_substeps.toNat * (o.rsteps step + 1)
    + o.rsteps step

end TerminationMeasure

section InvariantDefs

variable {V G : Type} [AddCommGroup V] [Module ℚ V]

/-- Facts available about the trial substep built by the loop body when
the driver and geometry contracts hold and the requested trial is
positive. -/
structure TrialFacts (E : PropEnv V G) (s : FieldSubstepper V G)
    (t : detail.TrialSubstep V) : Prop where
  opts_eq : t.options = E.options
  substep_pos : 0 < t.substep_.step
  substep_le : t.substep_.step ≤ s.trial_substep_
  len_nonneg : 0 ≤ t.chord_.length
  dist_nonneg : 0 ≤ t.linear_step_.distance
  dist_le : t.linear_step_.distance ≤ t.chord_.length + E.options.delta_intersection
  scaled_eq : t.scaled_substep_
    = t.linear_step_.distance / t.chord_.length * t.substep_.step
  chord_eq : t.chord_ = make_chord E.nrm t.start_pos t.substep_.state.pos

/-- Loop invariant of the substep state machine: the bookkeeping scalars
stay in range, the trial never exceeds the remaining distance budget, a
spent substep implies progress, a cleared boundary flag implies the
geometry is off the boundary, and an exhausted substep budget implies the
flag was cleared by the last accepted substep. -/
structure Inv (E : PropEnv V G) (s : FieldSubstepper V G) : Prop where
  opts_eq : s.options_ = E.options
  travelled_nonneg : 0 ≤ s.travelled_
  trial_nonneg : 0 ≤ s.trial_substep_
  trial_le : s.trial_substep_ ≤ s.propagation_step_ - s.travelled_
  rem_nonneg : 0 ≤ s.remaining_substeps_
  rem_le : s.remaining_substeps_ ≤ FieldPropagatorOptions.max_substeps
  progressed : s.remaining_substeps_ < FieldPropagatorOptions.max_substeps →
    0 < s.travelled_
  flag_sync : s.state_.boundary = false →
    E.O.is_on_boundary s.state_.geo = false
  rem_zero_flag : s.remaining_substeps_ = 0 → s.state_.boundary = false

end InvariantDefs

set_option allowUnsafeReducibility true in
attribute [semireducible] Rat.add Rat.mul Rat.sub Rat.inv

section BasicLemmas

variable {V G : Type} [AddCommGroup V] [Module ℚ V]

theorem status_iterating_iff (s : FieldSubstepper V G) :
    s.status = .iterating ↔
      s.options_.minimum_substep < s.trial_substep_ ∧ 0 < s.remaining_substeps_ := by
  unfold FieldSubstepper.status
  split_ifs with h1 h2 h3 <;> simp_all

theorem status_boundary_facts (s : FieldSubstepper V G)
    (h : s.status = .boundary) : 0 < s.travelled_ ∧ s.state_.boundary = true := by
  unfold FieldSubstepper.status at h
  split_ifs at h <;> simp_all

theorem status_moved_internal_facts (s : FieldSubstepper V G)
    (h : s.status = .moved_internal) :
    0 < s.travelled_ ∧ s.state_.boundary = false := by
  unfold FieldSubstepper.status at h
  split_ifs at h <;> simp_all

theorem status_looping_facts (s : FieldSubstepper V G)
    (h : s.status = .looping) :
    s.remaining_substeps_ = 0 ∧ s.travelled_ < s.propagation_step_ := by
  unfold FieldSubstepper.status at h
  split_ifs at h <;> simp_all

theorem status_stuck_facts (s : FieldSubstepper V G)
    (h : s.status = .stuck) : ¬ 0 < s.travelled_ := by
  unfold FieldSubstepper.status at h
  split_ifs at h <;> simp_all

theorem trial_of_substep (E : PropEnv V G) (s : FieldSubstepper V G) :
    (trial_of E s).1.substep_ = E.advance s.trial_substep_ s.state_.state := rfl

theorem trial_of_start_pos (E : PropEnv V G) (s : FieldSubstepper V G) :
    (trial_of E s).1.start_pos = s.state_.state.pos := rfl

theorem trial_of_start_boundary (E : PropEnv V G) (s : FieldSubstepper V G) :
    (trial_of E s).1.start_boundary = s.state_.boundary := rfl

theorem trial_of_options (E : PropEnv V G) (s : FieldSubstepper V G) :
    (trial_of E s).1.options = E.options := rfl

theorem trial_of_chord (E : PropEnv V G) (s : FieldSubstepper V G) :
    (trial_of E s).1.chord_ =
      make_chord E.nrm s.state_.state.pos
        (E.advance s.trial_substep_ s.state_.state).state.pos := rfl

theorem trial_of_linear (E : PropEnv V G) (s : FieldSubstepper V G) :
    (trial_of E s).1.linear_step_ =
      (NextStepFinder E.O E.options
        (make_chord E.nrm s.state_.state.pos
          (E.advance s.trial_substep_ s.state_.state).state.pos)
        s.state_.geo).1 := rfl

theorem trial_of_scaled (E : PropEnv V G) (s : FieldSubstepper V G) :
    (trial_of E s).1.scaled_substep_ =
      (trial_of E s).1.linear_step_.distance / (trial_of E s).1.chord_.length
        * (trial_of E s).1.substep_.step := rfl

theorem trial_of_geo (E : PropEnv V G) (s : FieldSubstepper V G) :
    (trial_of E s).2 =
      (NextStepFinder E.O E.options
        (make_chord E.nrm s.state_.state.pos
          (E.advance s.trial_substep_ s.state_.state).state.pos)
        s.state_.geo).2 := rfl

theorem NextStepFinder_onb {O : GeoOps V G} (hG : GeoContracts O)
    (opts : FieldPropagatorOptions) (chord : Chord V) (g : G) :
    O.is_on_boundary (NextStepFinder O opts chord g).2 = O.is_on_boundary g := by
  unfold NextStepFinder
  split_ifs
  · rw [hG.fns_onb, hG.set_dir_onb]
  · rw [hG.fns_onb]

theorem NextStepFinder_pos {O : GeoOps V G} (hG : GeoContracts O)
    (opts : FieldPropagatorOptions) (chord : Chord V) (g : G) :
    O.pos (NextStepFinder O opts chord g).2 = O.pos g := by
  unfold NextStepFinder
  split_ifs
  · rw [hG.fns_pos, hG.set_dir_pos]
  · rw [hG.fns_pos]

theorem NextStepFinder_distance {O : GeoOps V G} (hG : GeoContracts O)
    (opts : FieldPropagatorOptions) (chord : Chord V) (g : G)
    (hcap : 0 ≤ chord.length + opts.delta_intersection) :
    0 ≤ (NextStepFinder O opts chord g).1.distance ∧
      (NextStepFinder O opts chord g).1.distance
        ≤ chord.length + opts.delta_intersection := by
  unfold NextStepFinder
  split_ifs
  · exact ⟨hG.fns_nonneg _ _ hcap, hG.fns_le _ _ hcap⟩
  · exact ⟨hG.fns_nonneg _ _ hcap, hG.fns_le _ _ hcap⟩

theorem intercept_norm {nrm : V → ℚ} (hn : NrmLaws nrm) (a b : V) (dist : ℚ)
    (hne : nrm (b - a) ≠ 0) :
    nrm (a + dist • (make_chord nrm a b).dir - b) = |dist - nrm (b - a)| := by
  have hpos : 0 < nrm (b - a) := lt_of_le_of_ne (hn.nonneg _) (Ne.symm hne)
  have h1 : a + dist • (make_chord nrm a b).dir - b
      = (dist * (nrm (b - a))⁻¹ - 1) • (b - a) := by
    unfold make_chord
    rw [smul_smul, sub_smul, one_smul]
    abel
  rw [h1, hn.smul_abs]
  rw [show dist * (nrm (b - a))⁻¹ - 1 = (dist - nrm (b - a)) * (nrm (b - a))⁻¹ by
    field_simp]
  rw [abs_mul, abs_inv, abs_of_pos hpos]
  field_simp

theorem trial_of_facts {E : PropEnv V G} (hC : ContractsHold E)
    (s : FieldSubstepper V G) (htp : 0 < s.trial_substep_) :
    TrialFacts E s (trial_of E s).1 := by
  obtain ⟨hn, hG, hD, hdelta, hmin⟩ := hC
  have hlen : 0 ≤ (trial_of E s).1.chord_.length := by
    rw [trial_of_chord]; exact hn.nonneg _
  have hcap : 0 ≤ (trial_of E s).1.chord_.length + E.options.delta_intersection :=
    add_nonneg hlen (le_of_lt hdelta)
  have hdist := NextStepFinder_distance hG E.options
    (make_chord E.nrm s.state_.state.pos
      (E.advance s.trial_substep_ s.state_.state).state.pos) s.state_.geo
    (by rw [trial_of_chord] at hcap; exact hcap)
  refine ⟨rfl, ?_, ?_, hlen, ?_, ?_, rfl, rfl⟩
  · exact hD.step_pos _ _ htp
  · exact hD.step_le _ _ htp
  · rw [trial_of_linear]; exact hdist.1
  · rw [trial_of_linear, trial_of_chord]; exact hdist.2

theorem trial_of_geo_onb {E : PropEnv V G} (hG : GeoContracts E.O)
    (s : FieldSubstepper V G) :
    E.O.is_on_boundary (trial_of E s).2 = E.O.is_on_boundary s.state_.geo := by
  rw [trial_of_geo]; exact NextStepFinder_onb hG _ _ _

theorem dispatch_accept_internal_iff (nrm : V → ℚ) (t : detail.TrialSubstep V) :
    dispatch_kind nrm t = .to_accept_internal ↔ t.no_boundary = true := by
  unfold dispatch_kind
  split_ifs <;> simp_all

theorem dispatch_retry_stuck_iff (nrm : V → ℚ) (t : detail.TrialSubstep V) :
    dispatch_kind nrm t = .to_retry_stuck ↔
      t.no_boundary = false ∧ t.stuck = true := by
  unfold dispatch_kind
  split_ifs <;> simp_all

theorem dispatch_accept_likely_iff (nrm : V → ℚ) (t : detail.TrialSubstep V) :
    dispatch_kind nrm t = .to_accept_likely_boundary ↔
      t.no_boundary = false ∧ t.stuck = false ∧
        (t.length_almost_boundary || t.endpoint_near_boundary nrm
          || t.degenerate_chord) = true := by
  unfold dispatch_kind
  split_ifs <;> simp_all

theorem dispatch_retry_hit_iff (nrm : V → ℚ) (t : detail.TrialSubstep V) :
    dispatch_kind nrm t = .to_retry_hit ↔
      t.no_boundary = false ∧ t.stuck = false ∧
        t.length_almost_boundary = false ∧
        t.endpoint_near_boundary nrm = false ∧
        t.degenerate_chord = false := by
  unfold dispatch_kind
  split_ifs with h1 h2 h3
  · simp_all
  · simp_all
  · simp only [Bool.not_eq_true] at h1 h2
    constructor
    · intro h; cases h
    · rintro ⟨-, -, ha, hb, hc⟩
      rw [ha, hb, hc] at h3
      simp at h3
  · simp only [Bool.not_eq_true, Bool.or_eq_false_iff] at h1 h2 h3
    exact ⟨fun _ => ⟨h1, h2, h3.1.1, h3.1.2, h3.2⟩, fun _ => rfl⟩

theorem no_boundary_false {t : detail.TrialSubstep V}
    (h : t.no_boundary = false) : t.linear_step_.boundary = true := by
  unfold detail.TrialSubstep.no_boundary at h
  simpa using h

theorem scaled_nonneg {E : PropEnv V G} {s : FieldSubstepper V G}
    {t : detail.TrialSubstep V} (tf : TrialFacts E s t) :
    0 ≤ t.scaled_substep_ := by
  rw [tf.scaled_eq]
  exact mul_nonneg (div_nonneg tf.dist_nonneg tf.len_nonneg)
    (le_of_lt tf.substep_pos)

theorem endpoint_far {E : PropEnv V G} {s : FieldSubstepper V G}
    {t : detail.TrialSubstep V} (hn : NrmLaws E.nrm) (tf : TrialFacts E s t)
    (hdeg : t.degenerate_chord = false)
    (hb : t.linear_step_.boundary = true)
    (hnear : t.endpoint_near_boundary E.nrm = false) :
    E.options.delta_intersection
      < t.chord_.length - t.linear_step_.distance := by
  have hlen0 : t.chord_.length ≠ 0 := by
    unfold detail.TrialSubstep.degenerate_chord at hdeg
    simpa using hdeg
  have hne : E.nrm (t.substep_.state.pos - t.start_pos) ≠ 0 := by
    have : t.chord_.length = E.nrm (t.substep_.state.pos - t.start_pos) := by
      rw [tf.chord_eq]; rfl
    rw [← this]; exact hlen0
  unfold detail.TrialSubstep.endpoint_near_boundary at hnear
  rw [hb] at hnear
  simp only [Bool.true_and] at hnear
  unfold is_intercept_close at hnear
  rw [decide_eq_false_iff_not, not_le] at hnear
  have hdir : t.chord_.dir
      = (make_chord E.nrm t.start_pos t.substep_.state.pos).dir := by
    rw [tf.chord_eq]
  rw [hdir, intercept_norm hn _ _ _ hne] at hnear
  rw [tf.opts_eq] at hnear
  have hcl : t.chord_.length = E.nrm (t.substep_.state.pos - t.start_pos) := by
    rw [tf.chord_eq]; rfl
  rw [← hcl] at hnear
  rcases le_or_lt t.chord_.length t.linear_step_.distance with hge | hlt
  · exfalso
    rw [abs_of_nonneg (by linarith)] at hnear
    have := tf.dist_le
    linarith
  · rw [abs_of_neg (by linarith)] at hnear
    linarith

theorem retry_scaled_lt {E : PropEnv V G} {s : FieldSubstepper V G}
    {t : detail.TrialSubstep V} (hn : NrmLaws E.nrm) (tf : TrialFacts E s t)
    (hdelta : 0 < E.options.delta_intersection)
    (hdeg : t.degenerate_chord = false)
    (hb : t.linear_step_.boundary = true)
    (hnear : t.endpoint_near_boundary E.nrm = false) :
    t.scaled_substep_ < t.substep_.step := by
  have hfar := endpoint_far hn tf hdeg hb hnear
  have hdist_lt : t.linear_step_.distance < t.chord_.length := by linarith
  have hlen_pos : 0 < t.chord_.length :=
    lt_of_le_of_lt tf.dist_nonneg hdist_lt
  rw [tf.scaled_eq]
  have hq : t.linear_step_.distance / t.chord_.length < 1 :=
    (div_lt_one hlen_pos).mpr hdist_lt
  calc t.linear_step_.distance / t.chord_.length * t.substep_.step
      < 1 * t.substep_.step := by
        exact mul_lt_mul_of_pos_right hq tf.substep_pos
    _ = t.substep_.step := one_mul _

theorem retry_decrease {E : PropEnv V G} {s : FieldSubstepper V G}
    {t : detail.TrialSubstep V} (hn : NrmLaws E.nrm) (tf : TrialFacts E s t)
    (hdelta : 0 < E.options.delta_intersection)
    (hlen_le : t.chord_.length ≤ t.substep_.step)
    (hdeg : t.degenerate_chord = false)
    (hb : t.linear_step_.boundary = true)
    (hnear : t.endpoint_near_boundary E.nrm = false) :
    E.options.delta_intersection < s.trial_substep_ - t.scaled_substep_ := by
  have hfar := endpoint_far hn tf hdeg hb hnear
  have hdist_lt : t.linear_step_.distance < t.chord_.length := by linarith
  have hlen_pos : 0 < t.chord_.length :=
    lt_of_le_of_lt tf.dist_nonneg hdist_lt
  have key : t.chord_.length - t.linear_step_.distance
      ≤ t.substep_.step - t.scaled_substep_ := by
    rw [tf.scaled_eq]
    have h1 : t.substep_.step - t.linear_step_.distance / t.chord_.length
        * t.substep_.step
        = (t.chord_.length - t.linear_step_.distance)
          * (t.substep_.step / t.chord_.length) := by
      field_simp
      ring
    rw [h1]
    have h2 : (1 : ℚ) ≤ t.substep_.step / t.chord_.length :=
      (one_le_div hlen_pos).mpr hlen_le
    nlinarith
  linarith [tf.substep_le]

end BasicLemmas

section InvariantLemmas

variable {V G : Type} [AddCommGroup V] [Module ℚ V]

theorem substep_iter_eq (E : PropEnv V G) (s : FieldSubstepper V G) :
    substep_iter E s =
      match dispatch_kind E.nrm (trial_of E s).1 with
      | .to_accept_internal =>
        (with_geo s (trial_of E s).2).accept_internal E.O (trial_of E s).1
      | .to_retry_stuck => (with_geo s (trial_of E s).2).retry_stuck (trial_of E s).1
      | .to_accept_likely_boundary =>
        (with_geo s (trial_of E s).2).accept_likely_boundary E.O (trial_of E s).1
      | .to_retry_hit => (with_geo s (trial_of E s).2).retry_hit (trial_of E s).1 :=
  rfl

theorem inv_with_geo {E : PropEnv V G} {s : FieldSubstepper V G} {g' : G}
    (hI : Inv E s)
    (honb : E.O.is_on_boundary g' = E.O.is_on_boundary s.state_.geo) :
    Inv E (with_geo s g') := by
  refine ⟨hI.opts_eq, hI.travelled_nonneg, hI.trial_nonneg, hI.trial_le,
    hI.rem_nonneg, hI.rem_le, hI.progressed, ?_, hI.rem_zero_flag⟩
  intro h
  simp only [with_geo] at h ⊢
  rw [honb]
  exact hI.flag_sync h

theorem inv_accept_internal {E : PropEnv V G} {s : FieldSubstepper V G}
    {t : detail.TrialSubstep V} (hG : GeoContracts E.O) (hI : Inv E s)
    (hsp : 0 < t.substep_.step) (hsl : t.substep_.step ≤ s.trial_substep_)
    (hrem : 0 < s.remaining_substeps_) :
    Inv E (s.accept_internal E.O t) := by
  have htl := hI.trial_le
  have htn := hI.travelled_nonneg
  refine ⟨hI.opts_eq, ?_, ?_, ?_, ?_, ?_, ?_, ?_, ?_⟩ <;>
    simp only [FieldSubstepper.accept_internal, detail.TrialSubstep.substep,
      detail.TrialSubstep.end_state]
  · linarith
  · linarith
  · exact le_rfl
  · omega
  · have := hI.rem_le; omega
  · intro _; linarith
  · intro _; exact hG.move_internal_onb _ _
  · intro _; trivial

theorem inv_retry_stuck {E : PropEnv V G} {s : FieldSubstepper V G}
    {t : detail.TrialSubstep V} (hI : Inv E s)
    (hsp : 0 < t.substep_.step) (hsl : t.substep_.step ≤ s.trial_substep_) :
    Inv E (s.retry_stuck t) := by
  refine ⟨hI.opts_eq, hI.travelled_nonneg, ?_, ?_, hI.rem_nonneg, hI.rem_le,
    hI.progressed, hI.flag_sync, hI.rem_zero_flag⟩ <;>
    simp only [FieldSubstepper.retry_stuck, detail.TrialSubstep.substep]
  · linarith
  · have := hI.trial_le; linarith

theorem inv_retry_hit {E : PropEnv V G} {s : FieldSubstepper V G}
    {t : detail.TrialSubstep V} (hI : Inv E s)
    (h0 : 0 ≤ t.scaled_substep_) (hle : t.scaled_substep_ ≤ s.trial_substep_) :
    Inv E (s.retry_hit t) := by
  refine ⟨hI.opts_eq, hI.travelled_nonneg, ?_, ?_, hI.rem_nonneg, hI.rem_le,
    hI.progressed, hI.flag_sync, hI.rem_zero_flag⟩ <;>
    simp only [FieldSubstepper.retry_hit, detail.TrialSubstep.scaled_substep]
  · exact h0
  · have := hI.trial_le; linarith

theorem inv_accept_likely {E : PropEnv V G} {s : FieldSubstepper V G}
    {t : detail.TrialSubstep V} (hG : GeoContracts E.O) (hI : Inv E s)
    (hsp : 0 < t.substep_.step) (hsl : t.substep_.step ≤ s.trial_substep_)
    (hsc : 0 ≤ t.scaled_substep_) (hrem : 0 < s.remaining_substeps_) :
    Inv E (s.accept_likely_boundary E.O t) := by
  have hmin0 : 0 ≤ min t.scaled_substep_ t.substep_.step :=
    le_min hsc (le_of_lt hsp)
  have hmin1 : min t.scaled_substep_ t.substep_.step ≤ t.substep_.step :=
    min_le_right _ _
  have htl := hI.trial_le
  have htn := hI.travelled_nonneg
  refine ⟨hI.opts_eq, ?_, ?_, ?_, hI.rem_nonneg, hI.rem_le, ?_, ?_, ?_⟩ <;>
    simp only [FieldSubstepper.accept_likely_boundary,
      detail.TrialSubstep.substep, detail.TrialSubstep.scaled_substep,
      detail.TrialSubstep.end_state]
  · linarith
  · exact le_refl 0
  · linarith
  · intro h
    have := hI.progressed h
    linarith
  · intro h
    split_ifs at h ⊢ with hhit
    · exact hI.flag_sync h
    · exact hG.move_internal_onb _ _
  · intro h
    exact absurd h (by omega)

theorem inv_init {E : PropEnv V G} (g0 : G) (p0 step : ℚ) (hstep : 0 < step) :
    Inv E (init_substepper E g0 p0 step) := by
  refine ⟨rfl, le_rfl, le_of_lt hstep, ?_, ?_, le_rfl, ?_, ?_, ?_⟩ <;>
    simp only [init_substepper, FieldPropagatorOptions.max_substeps]
  · linarith
  · omega
  · intro h; omega
  · intro h; exact h
  · intro h; omega

theorem inv_step {E : PropEnv V G} (hC : ContractsHold E)
    {s : FieldSubstepper V G} (hI : Inv E s) (htp : 0 < s.trial_substep_)
    (hrem : 0 < s.remaining_substeps_) :
    Inv E (substep_iter E s) := by
  obtain ⟨hn, hG, hD, hdelta, hmin0⟩ := hC
  have tf := trial_of_facts ⟨hn, hG, hD, hdelta, hmin0⟩ s htp
  have honb := trial_of_geo_onb hG s
  have hIw : Inv E (with_geo s (trial_of E s).2) := inv_with_geo hI honb
  cases hdk : dispatch_kind E.nrm (trial_of E s).1 with
  | to_accept_internal =>
    rw [substep_iter_eq, hdk]
    exact inv_accept_internal hG hIw tf.substep_pos tf.substep_le hrem
  | to_retry_stuck =>
    rw [substep_iter_eq, hdk]
    exact inv_retry_stuck hIw tf.substep_pos tf.substep_le
  | to_accept_likely_boundary =>
    rw [substep_iter_eq, hdk]
    exact inv_accept_likely hG hIw tf.substep_pos tf.substep_le
      (scaled_nonneg tf) hrem
  | to_retry_hit =>
    rw [substep_iter_eq, hdk]
    obtain ⟨hnb, hst, hla, hne, hdg⟩ := (dispatch_retry_hit_iff E.nrm _).mp hdk
    have hb := no_boundary_false hnb
    have hlt := retry_scaled_lt hn tf hdelta hdg hb hne
    exact inv_retry_hit hIw (scaled_nonneg tf)
      (le_of_lt (lt_of_lt_of_le hlt tf.substep_le))

theorem iterating_trial_rem {E : PropEnv V G} (hC : ContractsHold E)
    {s : FieldSubstepper V G} (hI : Inv E s) (hit : s.status = .iterating) :
    0 < s.trial_substep_ ∧ 0 < s.remaining_substeps_ := by
  obtain ⟨hmlt, hrem⟩ := (status_iterating_iff s).mp hit
  rw [hI.opts_eq] at hmlt
  have hmin0 := hC.2.2.2.2
  exact ⟨by linarith, hrem⟩

theorem inv_run {E : PropEnv V G} (hC : ContractsHold E) :
    ∀ (n : ℕ) (s : FieldSubstepper V G), Inv E s → 0 < s.trial_substep_ →
      0 < s.remaining_substeps_ → Inv E (substep_run E n s)
  | 0, s, hI, htp, hrem => inv_step hC hI htp hrem
  | n + 1, s, hI, htp, hrem => by
    unfold substep_run
    split_ifs with h
    · have hI1 := inv_step hC hI htp hrem
      obtain ⟨h1, h2⟩ := iterating_trial_rem hC hI1 h
      exact inv_run hC n _ hI1 h1 h2
    · exact inv_step hC hI htp hrem

theorem iter_prop_step (E : PropEnv V G) (s : FieldSubstepper V G) :
    (substep_iter E s).propagation_step_ = s.propagation_step_ := by
  rw [substep_iter_eq]
  cases dispatch_kind E.nrm (trial_of E s).1 <;> rfl

theorem iter_options (E : PropEnv V G) (s : FieldSubstepper V G) :
    (substep_iter E s).options_ = s.options_ := by
  rw [substep_iter_eq]
  cases dispatch_kind E.nrm (trial_of E s).1 <;> rfl

theorem run_prop_step (E : PropEnv V G) :
    ∀ (n : ℕ) (s : FieldSubstepper V G),
      (substep_run E n s).propagation_step_ = s.propagation_step_
  | 0, s => iter_prop_step E s
  | n + 1, s => by
    unfold substep_run
    split_ifs with h
    · rw [run_prop_step E n, iter_prop_step]
    · exact iter_prop_step E s

theorem run_options (E : PropEnv V G) :
    ∀ (n : ℕ) (s : FieldSubstepper V G),
      (substep_run E n s).options_ = s.options_
  | 0, s => iter_options E s
  | n + 1, s => by
    unfold substep_run
    split_ifs with h
    · rw [run_options E n, iter_options]
    · exact iter_options E s

theorem finalize_eq_boundary {E : PropEnv V G} {s : FieldSubstepper V G}
    (h : s.status = .boundary) :
    finalize E s = (s.cross_boundary E.O).restore_direction E.nrm E.O := by
  unfold finalize
  rw [h]
  simp

theorem finalize_eq_moved {E : PropEnv V G} {s : FieldSubstepper V G}
    (h : s.status = .moved_internal) :
    finalize E s = s.fixup_internal_step.restore_direction E.nrm E.O := by
  unfold finalize
  rw [h]
  simp

theorem finalize_eq_looping {E : PropEnv V G} {s : FieldSubstepper V G}
    (h : s.status = .looping) :
    finalize E s = s.restore_direction E.nrm E.O := by
  unfold finalize
  rw [h]
  simp

theorem finalize_eq_stuck {E : PropEnv V G} {s : FieldSubstepper V G}
    (h : s.status = .stuck) :
    finalize E s = (s.restore_direction E.nrm E.O).unstick E.O := by
  unfold finalize
  rw [h]
  simp

theorem propagate_distance (E : PropEnv V G) (fuel : ℕ) (g0 : G)
    (p0 step : ℚ) :
    (propagate E fuel g0 p0 step).1.distance =
      (finalize E (substep_run E fuel (init_substepper E g0 p0 step))).travelled_ :=
  rfl

theorem propagate_boundary_eq (E : PropEnv V G) (fuel : ℕ) (g0 : G)
    (p0 step : ℚ) :
    (propagate E fuel g0 p0 step).1.boundary =
      (finalize E (substep_run E fuel (init_substepper E g0 p0 step))).state_.boundary :=
  rfl

theorem propagate_looping_eq (E : PropEnv V G) (fuel : ℕ) (g0 : G)
    (p0 step : ℚ) :
    (propagate E fuel g0 p0 step).1.looping =
      decide ((substep_run E fuel (init_substepper E g0 p0 step)).status = .looping) :=
  rfl

theorem propagate_state_eq (E : PropEnv V G) (fuel : ℕ) (g0 : G)
    (p0 step : ℚ) :
    (propagate E fuel g0 p0 step).2 =
      finalize E (substep_run E fuel (init_substepper E g0 p0 step)) :=
  rfl

end InvariantLemmas

section InstanceLemmas

theorem mkGeoOps_contracts (f : MockGeo → ℚ → Propagation)
    (fs : MockGeo → ℚ → ℚ)
    (h1 : ∀ (g : MockGeo) (m : ℚ), 0 ≤ m → (f g m).distance ≤ m)
    (h2 : ∀ (g : MockGeo) (m : ℚ), 0 ≤ m → 0 ≤ (f g m).distance) :
    GeoContracts (mkGeoOps f fs) := by
  constructor <;> intros <;>
    first
      | exact h1 _ _ (by assumption)
      | exact h2 _ _ (by assumption)
      | rfl

theorem qabs_laws : NrmLaws (fun q : ℚ => |q|) := by
  constructor
  · intro v; exact abs_nonneg v
  · intro c v; exact abs_mul c v

theorem idleDriver_contract : DriverContract idleDriver := by
  constructor
  · intro t s ht; exact ht
  · intro t s ht; exact le_rfl

theorem freeEnv_contracts (delta min_s : ℚ) (hd : 0 < delta)
    (hm : 0 ≤ min_s) : ContractsHold (freeEnv delta min_s) := by
  refine ⟨qabs_laws, ?_, idleDriver_contract, hd, hm⟩
  exact mkGeoOps_contracts _ _ (fun g m hm => le_rfl) (fun g m hm => hm)

theorem stuckEnv_contracts (delta min_s : ℚ) (hd : 0 < delta)
    (hm : 0 ≤ min_s) : ContractsHold (stuckEnv delta min_s) := by
  refine ⟨qabs_laws, ?_, idleDriver_contract, hd, hm⟩
  exact mkGeoOps_contracts _ _ (fun g m hm => hm) (fun g m hm => le_rfl)

end InstanceLemmas

section Claims

variable {V G : Type} [AddCommGroup V] [Module ℚ V]

/-- C1: for every call `propagate(step_request)` with `step_request > 0`,
on a driver and geometry satisfying their contracts, every terminal path
(boundary, internal, looping, stuck) returns a result with
`0 < distance`, and `distance <= step_request` or soft-equal to it (in
exact rational arithmetic the first disjunct always holds). -/
theorem spec_c1 (E : PropEnv V G) (hC : ContractsHold E) (g0 : G)
    (p0 step : ℚ) (fuel : ℕ) (hstep : 0 < step)
    (hterm : (substep_run E fuel (init_substepper E g0 p0 step)).status
      ≠ .iterating) :
    0 < (propagate E fuel g0 p0 step).1.distance ∧
      ((propagate E fuel g0 p0 step).1.distance ≤ step ∨
        soft_equal (propagate E fuel g0 p0 step).1.distance step) := by
  have hI : Inv E (substep_run E fuel (init_substepper E g0 p0 step)) :=
    inv_run hC fuel _ (inv_init g0 p0 step hstep) hstep
      (by norm_num [init_substepper, FieldPropagatorOptions.max_substeps])
  set sl := substep_run E fuel (init_substepper E g0 p0 step) with hsl
  have hprop : sl.propagation_step_ = step := run_prop_step E fuel _
  have htrav_le : sl.travelled_ ≤ step := by
    have h1 := hI.trial_nonneg
    have h2 := hI.trial_le
    rw [hprop] at h2
    linarith
  rw [propagate_distance]
  cases hst : sl.status with
  | iterating => exact absurd hst hterm
  | boundary =>
    obtain ⟨htr, -⟩ := status_boundary_facts sl hst
    have hd : (finalize E sl).travelled_ = sl.travelled_ := by
      rw [finalize_eq_boundary hst]
      rfl
    rw [hd]
    exact ⟨htr, Or.inl htrav_le⟩
  | moved_internal =>
    have hd : (finalize E sl).travelled_ = sl.fixup_internal_step.travelled_ := by
      rw [finalize_eq_moved hst]
      rfl
    have hd2 : sl.fixup_internal_step.travelled_ =
        if sl.travelled_ < sl.propagation_step_ then sl.propagation_step_
        else sl.travelled_ := by
      unfold FieldSubstepper.fixup_internal_step
      split_ifs <;> rfl
    rw [hd, hd2]
    split_ifs with hlt
    · rw [hprop]
      exact ⟨hstep, Or.inl le_rfl⟩
    · obtain ⟨htr, -⟩ := status_moved_internal_facts sl hst
      exact ⟨htr, Or.inl htrav_le⟩
  | stuck =>
    have hd : (finalize E sl).travelled_ =
        min sl.options_.bump_distance sl.propagation_step_ := by
      rw [finalize_eq_stuck hst]
      rfl
    rw [hd, hI.opts_eq, hprop]
    have hbp : 0 < E.options.bump_distance := by
      unfold FieldPropagatorOptions.bump_distance
      exact mul_pos hC.2.2.2.1 (by norm_num)
    exact ⟨lt_min hbp hstep, Or.inl (min_le_right _ _)⟩
  | looping =>
    obtain ⟨hrem0, -⟩ := status_looping_facts sl hst
    have htr : 0 < sl.travelled_ := by
      refine hI.progressed ?_
      rw [hrem0]
      unfold FieldPropagatorOptions.max_substeps
      norm_num
    have hd : (finalize E sl).travelled_ = sl.travelled_ := by
      rw [finalize_eq_looping hst]
      rfl
    rw [hd]
    exact ⟨htr, Or.inl htrav_le⟩

/-- Witness for C1 at a concrete environment: the free geometry, the idle
driver, step request 1, one loop iteration ending `moved_internal`. -/
theorem spec_c1_witness :
    ContractsHold (freeEnv (1 / 10) (1 / 100)) ∧ (0 : ℚ) < 1 ∧
      (substep_run (freeEnv (1 / 10) (1 / 100)) 1
        (init_substepper (freeEnv (1 / 10) (1 / 100))
          { x := 0, d := 1, onb := false } 1 1)).status ≠ .iterating ∧
      (0 < (propagate (freeEnv (1 / 10) (1 / 100)) 1
          { x := 0, d := 1, onb := false } 1 1).1.distance ∧
        ((propagate (freeEnv (1 / 10) (1 / 100)) 1
            { x := 0, d := 1, onb := false } 1 1).1.distance ≤ 1 ∨
          soft_equal ((propagate (freeEnv (1 / 10) (1 / 100)) 1
            { x := 0, d := 1, onb := false } 1 1).1.distance) 1)) :=
  ⟨freeEnv_contracts _ _ (by norm_num) (by norm_num), by norm_num, by decide,
    spec_c1 _ (freeEnv_contracts _ _ (by norm_num) (by norm_num)) _ 1 1 1
      (by norm_num) (by decide)⟩

/-- C3: for every terminating call `propagate(step_request > 0)` under the
contracts, the returned boundary flag equals `geo.is_on_boundary()` on the
final geometry state whenever the loop did not end `stuck`. -/
theorem spec_c3 (E : PropEnv V G) (hC : ContractsHold E) (g0 : G)
    (p0 step : ℚ) (fuel : ℕ) (hstep : 0 < step)
    (hterm : (substep_run E fuel (init_substepper E g0 p0 step)).status
      ≠ .iterating)
    (hns : (substep_run E fuel (init_substepper E g0 p0 step)).status
      ≠ .stuck) :
    (propagate E fuel g0 p0 step).1.boundary
      = E.O.is_on_boundary (propagate E fuel g0 p0 step).2.state_.geo := by
  have hI : Inv E (substep_run E fuel (init_substepper E g0 p0 step)) :=
    inv_run hC fuel _ (inv_init g0 p0 step hstep) hstep
      (by norm_num [init_substepper, FieldPropagatorOptions.max_substeps])
  obtain ⟨hn, hG, hD, hdelta, hmin0⟩ := hC
  set sl := substep_run E fuel (init_substepper E g0 p0 step) with hsl
  rw [propagate_boundary_eq, propagate_state_eq]
  cases hst : sl.status with
  | iterating => exact absurd hst hterm
  | stuck => exact absurd hst hns
  | boundary =>
    have hflag : (finalize E sl).state_.boundary = true := by
      rw [finalize_eq_boundary hst]
      rfl
    have honb : E.O.is_on_boundary (finalize E sl).state_.geo = true := by
      rw [finalize_eq_boundary hst]
      show E.O.is_on_boundary
        (E.O.set_dir (E.O.move_to_boundary sl.state_.geo) _) = true
      rw [hG.set_dir_onb, hG.move_to_boundary_onb]
    rw [hflag, honb]
  | moved_internal =>
    obtain ⟨-, hflag0⟩ := status_moved_internal_facts sl hst
    have hfix : sl.fixup_internal_step.state_ = sl.state_ := by
      unfold FieldSubstepper.fixup_internal_step
      split_ifs <;> rfl
    have hflag : (finalize E sl).state_.boundary = false := by
      rw [finalize_eq_moved hst]
      show sl.fixup_internal_step.state_.boundary = false
      rw [hfix]
      exact hflag0
    have honb : E.O.is_on_boundary (finalize E sl).state_.geo = false := by
      rw [finalize_eq_moved hst]
      show E.O.is_on_boundary
        (E.O.set_dir sl.fixup_internal_step.state_.geo _) = false
      rw [hG.set_dir_onb, hfix]
      exact hI.flag_sync hflag0
    rw [hflag, honb]
  | looping =>
    obtain ⟨hrem0, -⟩ := status_looping_facts sl hst
    have hflag0 : sl.state_.boundary = false := hI.rem_zero_flag hrem0
    have hflag : (finalize E sl).state_.boundary = false := by
      rw [finalize_eq_looping hst]
      exact hflag0
    have honb : E.O.is_on_boundary (finalize E sl).state_.geo = false := by
      rw [finalize_eq_looping hst]
      show E.O.is_on_boundary (E.O.set_dir sl.state_.geo _) = false
      rw [hG.set_dir_onb]
      exact hI.flag_sync hflag0
    rw [hflag, honb]

/-- Witness for C3 at a concrete environment: the free geometry, one loop
iteration ending `moved_internal`, boundary flag and geometry agreeing. -/
theorem spec_c3_witness :
    ContractsHold (freeEnv (1 / 10) (1 / 100)) ∧
      (substep_run (freeEnv (1 / 10) (1 / 100)) 1
        (init_substepper (freeEnv (1 / 10) (1 / 100))
          { x := 0, d := 1, onb := false } 1 1)).status ≠ .stuck ∧
      (propagate (freeEnv (1 / 10) (1 / 100)) 1
          { x := 0, d := 1, onb := false } 1 1).1.boundary
        = (freeEnv (1 / 10) (1 / 100)).O.is_on_boundary
            (propagate (freeEnv (1 / 10) (1 / 100)) 1
              { x := 0, d := 1, onb := false } 1 1).2.state_.geo :=
  ⟨freeEnv_contracts _ _ (by norm_num) (by norm_num), by decide,
    spec_c3 _ (freeEnv_contracts _ _ (by norm_num) (by norm_num)) _ 1 1 1
      (by norm_num) (by decide) (by decide)⟩

/-- C2: characterization of the `accept_likely_boundary` transition.  The
boundary is committed as hit iff the intercept is truly at or before the
chord end, or the scaled substep stays within the remaining trial budget,
or the chord is degenerate; when not hit, only the curved endpoint
position is committed via `move_internal` and the boundary flag keeps its
value; in both cases the momentum is the end-state momentum, the travelled
distance grows by `min(scaled_substep, substep)`, and the trial substep
becomes zero. -/
theorem spec_c2 (O : GeoOps V G) (s : FieldSubstepper V G)
    (t : detail.TrialSubstep V) :
    (s.hit_boundary t = true ↔
      (t.linear_step_.distance ≤ t.chord_.length ∨
        s.travelled_ + t.scaled_substep ≤ s.trial_substep_ ∨
        t.chord_.length = 0)) ∧
    (s.hit_boundary t = false →
      ((s.accept_likely_boundary O t).state_.state.pos = t.end_state.pos ∧
        (s.accept_likely_boundary O t).state_.geo
          = O.move_internal s.state_.geo t.end_state.pos ∧
        (s.accept_likely_boundary O t).state_.boundary = s.state_.boundary)) ∧
    (s.accept_likely_boundary O t).state_.state.mom = t.end_state.mom ∧
    (s.accept_likely_boundary O t).travelled_
      = s.travelled_ + min t.scaled_substep t.substep ∧
    (s.accept_likely_boundary O t).trial_substep_ = 0 := by
  refine ⟨?_, ?_, ?_, ?_, ?_⟩
  · unfold FieldSubstepper.hit_boundary detail.TrialSubstep.true_boundary
      detail.TrialSubstep.degenerate_chord detail.TrialSubstep.scaled_substep
    simp only [Bool.or_eq_true, decide_eq_true_eq]
    tauto
  · intro h
    unfold FieldSubstepper.accept_likely_boundary
    rw [h]
    exact ⟨rfl, rfl, rfl⟩
  · unfold FieldSubstepper.accept_likely_boundary
    split_ifs <;> rfl
  · unfold FieldSubstepper.accept_likely_boundary
    split_ifs <;> rfl
  · unfold FieldSubstepper.accept_likely_boundary
    split_ifs <;> rfl

/-- Witness for C2 at a concrete state and trial. -/
theorem spec_c2_witness :
    (sampleSub.hit_boundary sampleTrial = true ↔
      (sampleTrial.linear_step_.distance ≤ sampleTrial.chord_.length ∨
        sampleSub.travelled_ + sampleTrial.scaled_substep
          ≤ sampleSub.trial_substep_ ∨
        sampleTrial.chord_.length = 0)) ∧
    (sampleSub.hit_boundary sampleTrial = false →
      (((sampleSub.accept_likely_boundary freeOps sampleTrial)).state_.state.pos
          = sampleTrial.end_state.pos ∧
        ((sampleSub.accept_likely_boundary freeOps sampleTrial)).state_.geo
          = freeOps.move_internal sampleSub.state_.geo sampleTrial.end_state.pos ∧
        ((sampleSub.accept_likely_boundary freeOps sampleTrial)).state_.boundary
          = sampleSub.state_.boundary)) ∧
    ((sampleSub.accept_likely_boundary freeOps sampleTrial)).state_.state.mom
      = sampleTrial.end_state.mom ∧
    ((sampleSub.accept_likely_boundary freeOps sampleTrial)).travelled_
      = sampleSub.travelled_
        + min sampleTrial.scaled_substep sampleTrial.substep ∧
    ((sampleSub.accept_likely_boundary freeOps sampleTrial)).trial_substep_ = 0 :=
  spec_c2 freeOps sampleSub sampleTrial

theorem status_of_terminal (s : FieldSubstepper V G)
    (ht0 : s.trial_substep_ ≤ s.options_.minimum_substep)
    (hrem : s.remaining_substeps_ ≠ 0)
    (htr : 0 < s.travelled_) :
    s.status = if s.state_.boundary then .boundary else .moved_internal := by
  unfold FieldSubstepper.status
  rw [if_neg, if_neg, if_pos htr]
  · exact fun h => hrem h.1
  · exact fun h => absurd h.1 (not_lt.mpr ht0)

/-- C10: the `accept_likely_boundary` transition never writes the
`GeoFieldState` boundary flag (in the not-hit branch it keeps its previous
value), so a transition entered with the flag set and ending with positive
travelled distance and remaining substeps reports terminal status
`boundary`, triggering `move_to_boundary`, even when the hit decision was
negative. -/
theorem spec_c10 (O : GeoOps V G) (s : FieldSubstepper V G)
    (t : detail.TrialSubstep V)
    (hmin : 0 ≤ s.options_.minimum_substep)
    (hrem : 0 < s.remaining_substeps_)
    (htr : 0 < s.travelled_ + min t.scaled_substep t.substep) :
    (s.accept_likely_boundary O t).state_.boundary = s.state_.boundary ∧
      (s.state_.boundary = true →
        (s.accept_likely_boundary O t).status = .boundary) := by
  have hflag : (s.accept_likely_boundary O t).state_.boundary
      = s.state_.boundary := by
    unfold FieldSubstepper.accept_likely_boundary
    split_ifs <;> rfl
  refine ⟨hflag, fun hb => ?_⟩
  have h1 : (s.accept_likely_boundary O t).trial_substep_ = 0 := by
    unfold FieldSubstepper.accept_likely_boundary
    split_ifs <;> rfl
  have h2 : (s.accept_likely_boundary O t).remaining_substeps_
      = s.remaining_substeps_ := by
    unfold FieldSubstepper.accept_likely_boundary
    split_ifs <;> rfl
  have h3 : (s.accept_likely_boundary O t).travelled_
      = s.travelled_ + min t.scaled_substep t.substep := by
    unfold FieldSubstepper.accept_likely_boundary
    split_ifs <;> rfl
  have h4 : (s.accept_likely_boundary O t).options_ = s.options_ := by
    unfold FieldSubstepper.accept_likely_boundary
    split_ifs <;> rfl
  rw [status_of_terminal]
  · rw [hflag, hb]
    rfl
  · rw [h1, h4]
    exact hmin
  · rw [h2]
    omega
  · rw [h3]
    exact htr

/-- Witness for C10 at a concrete state and trial: starting on a boundary
with spare substeps and positive committed distance. -/
theorem spec_c10_witness :
    0 ≤ sampleSub.options_.minimum_substep ∧
      0 < sampleSub.remaining_substeps_ ∧
      0 < sampleSub.travelled_
        + min sampleTrial.scaled_substep sampleTrial.substep ∧
      (sampleSub.accept_likely_boundary freeOps sampleTrial).state_.boundary
        = sampleSub.state_.boundary ∧
      (sampleSub.state_.boundary = true →
        (sampleSub.accept_likely_boundary freeOps sampleTrial).status
          = .boundary) :=
  ⟨by decide, by decide, by decide,
    (spec_c10 freeOps sampleSub sampleTrial (by decide) (by decide)
      (by decide)).1,
    (spec_c10 freeOps sampleSub sampleTrial (by decide) (by decide)
      (by decide)).2⟩

/-- Counterexample for C4 as stated: with a contract-satisfying
environment (every boundary query reports a hit at distance zero, idle
driver, `minimum_step = 1/8`, `delta_intersection = 1/1000`), a track
starting on a boundary and step request `1/2`, every loop body classifies
the trial as stuck and halves it until the status test fails; the run ends
`stuck` with zero travelled distance, and the returned result has
`boundary = false` and `looping = false` yet `distance = 1/10000` (the
bump), which is neither equal nor soft-equal to the step request. -/
theorem spec_c4_counterexample :
    ContractsHold (stuckEnv (1 / 1000) (1 / 8)) ∧
      (propagate (stuckEnv (1 / 1000) (1 / 8)) 5 { x := 0, d := 1, onb := true }
        1 (1 / 2)).1.boundary = false ∧
      (propagate (stuckEnv (1 / 1000) (1 / 8)) 5 { x := 0, d := 1, onb := true }
        1 (1 / 2)).1.looping = false ∧
      (propagate (stuckEnv (1 / 1000) (1 / 8)) 5 { x := 0, d := 1, onb := true }
        1 (1 / 2)).1.distance ≠ 1 / 2 ∧
      ¬ soft_equal ((propagate (stuckEnv (1 / 1000) (1 / 8)) 5
        { x := 0, d := 1, onb := true } 1 (1 / 2)).1.distance) (1 / 2) :=
  ⟨stuckEnv_contracts _ _ (by norm_num) (by norm_num), by decide, by decide,
    by decide, by decide⟩

/-- C4 amended: for every terminating call whose result has
`boundary = false` and `looping = false`, the distance equals the step
request exactly or is soft-equal to it, unless the loop terminated `stuck`,
in which case the distance is `min(bump_distance, step_request)`. -/
theorem spec_c4_amended (E : PropEnv V G) (hC : ContractsHold E) (g0 : G)
    (p0 step : ℚ) (fuel : ℕ) (hstep : 0 < step)
    (hterm : (substep_run E fuel (init_substepper E g0 p0 step)).status
      ≠ .iterating)
    (hb : (propagate E fuel g0 p0 step).1.boundary = false)
    (hl : (propagate E fuel g0 p0 step).1.looping = false) :
    (propagate E fuel g0 p0 step).1.distance = step ∨
      soft_equal (propagate E fuel g0 p0 step).1.distance step ∨
      ((substep_run E fuel (init_substepper E g0 p0 step)).status = .stuck ∧
        (propagate E fuel g0 p0 step).1.distance
          = min E.options.bump_distance step) := by
  have hI : Inv E (substep_run E fuel (init_substepper E g0 p0 step)) :=
    inv_run hC fuel _ (inv_init g0 p0 step hstep) hstep
      (by norm_num [init_substepper, FieldPropagatorOptions.max_substeps])
  set sl := substep_run E fuel (init_substepper E g0 p0 step) with hsl
  have hprop : sl.propagation_step_ = step := run_prop_step E fuel _
  have htrav_le : sl.travelled_ ≤ step := by
    have h1 := hI.trial_nonneg
    have h2 := hI.trial_le
    rw [hprop] at h2
    linarith
  cases hst : sl.status with
  | iterating => exact absurd hst hterm
  | boundary =>
    exfalso
    have hflag : (propagate E fuel g0 p0 step).1.boundary = true := by
      rw [propagate_boundary_eq]
      rw [show finalize E sl = (sl.cross_boundary E.O).restore_direction
        E.nrm E.O from finalize_eq_boundary hst]
      rfl
    rw [hflag] at hb
    cases hb
  | looping =>
    exfalso
    have hlp : (propagate E fuel g0 p0 step).1.looping = true := by
      rw [propagate_looping_eq]
      rw [show (substep_run E fuel (init_substepper E g0 p0 step)).status
        = SubstepStatus.looping from hst]
      rfl
    rw [hlp] at hl
    cases hl
  | moved_internal =>
    left
    rw [propagate_distance]
    have hd : (finalize E sl).travelled_ = sl.fixup_internal_step.travelled_ := by
      rw [finalize_eq_moved hst]
      rfl
    have hd2 : sl.fixup_internal_step.travelled_ =
        if sl.travelled_ < sl.propagation_step_ then sl.propagation_step_
        else sl.travelled_ := by
      unfold FieldSubstepper.fixup_internal_step
      split_ifs <;> rfl
    rw [hd, hd2]
    split_ifs with hlt
    · exact hprop
    · rw [hprop] at hlt
      linarith
  | stuck =>
    right; right
    refine ⟨rfl, ?_⟩
    rw [propagate_distance]
    have hd : (finalize E sl).travelled_ =
        min sl.options_.bump_distance sl.propagation_step_ := by
      rw [finalize_eq_stuck hst]
      rfl
    rw [hd, hI.opts_eq, hprop]

/-- Witness for the amended C4: one internal substep consuming the whole
step request, distance exactly the request. -/
theorem spec_c4_amended_witness :
    ContractsHold (freeEnv (1 / 10) (1 / 100)) ∧
      (propagate (freeEnv (1 / 10) (1 / 100)) 1
        { x := 0, d := 1, onb := false } 1 1).1.boundary = false ∧
      (propagate (freeEnv (1 / 10) (1 / 100)) 1
        { x := 0, d := 1, onb := false } 1 1).1.looping = false ∧
      ((propagate (freeEnv (1 / 10) (1 / 100)) 1
          { x := 0, d := 1, onb := false } 1 1).1.distance = 1 ∨
        soft_equal ((propagate (freeEnv (1 / 10) (1 / 100)) 1
          { x := 0, d := 1, onb := false } 1 1).1.distance) 1 ∨
        ((substep_run (freeEnv (1 / 10) (1 / 100)) 1
            (init_substepper (freeEnv (1 / 10) (1 / 100))
              { x := 0, d := 1, onb := false } 1 1)).status = .stuck ∧
          (propagate (freeEnv (1 / 10) (1 / 100)) 1
            { x := 0, d := 1, onb := false } 1 1).1.distance
            = min (freeEnv (1 / 10) (1 / 100)).options.bump_distance 1)) :=
  ⟨freeEnv_contracts _ _ (by norm_num) (by norm_num), by decide, by decide,
    spec_c4_amended _ (freeEnv_contracts _ _ (by norm_num) (by norm_num)) _ 1 1
      1 (by norm_num) (by decide) (by decide) (by decide)⟩

/-- Counterexample for C5 as stated: with `delta_intersection = 10` the
bump distance is 1 while the step request is `1/2`; on a track starting on
a boundary whose geometry always reports a zero-distance hit, every loop
body is a stuck retry, the loop ends `stuck`, and the returned distance is
`min(bump_distance, step_request) = 1/2`, not `bump_distance`. -/
theorem spec_c5_counterexample :
    ContractsHold (stuckEnv 10 (1 / 8)) ∧
      (substep_run (stuckEnv 10 (1 / 8)) 5 (init_substepper (stuckEnv 10 (1 / 8))
        { x := 0, d := 1, onb := true } 1 (1 / 2))).status = .stuck ∧
      (propagate (stuckEnv 10 (1 / 8)) 5 { x := 0, d := 1, onb := true } 1
        (1 / 2)).1.boundary = false ∧
      (propagate (stuckEnv 10 (1 / 8)) 5 { x := 0, d := 1, onb := true } 1
        (1 / 2)).1.distance ≠ (stuckEnv 10 (1 / 8)).options.bump_distance ∧
      (propagate (stuckEnv 10 (1 / 8)) 5 { x := 0, d := 1, onb := true } 1
        (1 / 2)).1.distance
        = min ((stuckEnv 10 (1 / 8)).options.bump_distance) (1 / 2) :=
  ⟨stuckEnv_contracts _ _ (by norm_num) (by norm_num), by decide, by decide,
    by decide, by decide⟩

/-- C5 amended: when the loop terminates `stuck`, the propagator restores
the geometry direction to the momentum direction, advances the position by
`min(bump_distance, step_request)` along it, calls `move_internal` on the
new position, clears the boundary flag, and sets the travelled distance to
`min(bump_distance, step_request)`, which is the returned distance with
`boundary = false`. -/
theorem spec_c5_amended (E : PropEnv V G) (hC : ContractsHold E) (g0 : G)
    (p0 step : ℚ) (fuel : ℕ) (hstep : 0 < step)
    (hstuck : (substep_run E fuel (init_substepper E g0 p0 step)).status
      = .stuck) :
    (propagate E fuel g0 p0 step).1.distance
        = min E.options.bump_distance step ∧
      (propagate E fuel g0 p0 step).1.boundary = false ∧
      (propagate E fuel g0 p0 step).2.state_.state.pos
        = min E.options.bump_distance step
            • make_unit_vector E.nrm
              (substep_run E fuel (init_substepper E g0 p0 step)).state_.state.mom
          + (substep_run E fuel (init_substepper E g0 p0 step)).state_.state.pos ∧
      (propagate E fuel g0 p0 step).2.state_.geo
        = E.O.move_internal
            (E.O.set_dir
              (substep_run E fuel (init_substepper E g0 p0 step)).state_.geo
              (make_unit_vector E.nrm
                (substep_run E fuel
                  (init_substepper E g0 p0 step)).state_.state.mom))
            (min E.options.bump_distance step
              • make_unit_vector E.nrm
                (substep_run E fuel
                  (init_substepper E g0 p0 step)).state_.state.mom
              + (substep_run E fuel
                  (init_substepper E g0 p0 step)).state_.state.pos) := by
  have hI : Inv E (substep_run E fuel (init_substepper E g0 p0 step)) :=
    inv_run hC fuel _ (inv_init g0 p0 step hstep) hstep
      (by norm_num [init_substepper, FieldPropagatorOptions.max_substeps])
  obtain ⟨hn, hG, hD, hdelta, hmin0⟩ := hC
  set sl := substep_run E fuel (init_substepper E g0 p0 step) with hsl
  have hprop : sl.propagation_step_ = step := run_prop_step E fuel _
  refine ⟨?_, ?_, ?_, ?_⟩
  · rw [propagate_distance, finalize_eq_stuck hstuck]
    show min sl.options_.bump_distance sl.propagation_step_ = _
    rw [hI.opts_eq, hprop]
  · rw [propagate_boundary_eq, finalize_eq_stuck hstuck]
    rfl
  · rw [propagate_state_eq, finalize_eq_stuck hstuck]
    show min sl.options_.bump_distance sl.propagation_step_
        • E.O.dir (E.O.set_dir sl.state_.geo
          (make_unit_vector E.nrm sl.state_.state.mom))
        + sl.state_.state.pos = _
    rw [hG.set_dir_dir, hI.opts_eq, hprop]
  · rw [propagate_state_eq, finalize_eq_stuck hstuck]
    show E.O.move_internal
        (E.O.set_dir sl.state_.geo (make_unit_vector E.nrm sl.state_.state.mom))
        (min sl.options_.bump_distance sl.propagation_step_
          • E.O.dir (E.O.set_dir sl.state_.geo
            (make_unit_vector E.nrm sl.state_.state.mom))
          + sl.state_.state.pos) = _
    rw [hG.set_dir_dir, hI.opts_eq, hprop]

/-- Witness for the amended C5 at a concrete stuck run. -/
theorem spec_c5_amended_witness :
    ContractsHold (stuckEnv 10 (1 / 8)) ∧
      (substep_run (stuckEnv 10 (1 / 8)) 5 (init_substepper (stuckEnv 10 (1 / 8))
        { x := 0, d := 1, onb := true } 1 (1 / 2))).status = .stuck ∧
      ((propagate (stuckEnv 10 (1 / 8)) 5 { x := 0, d := 1, onb := true } 1
          (1 / 2)).1.distance
        = min (stuckEnv 10 (1 / 8)).options.bump_distance (1 / 2) ∧
      (propagate (stuckEnv 10 (1 / 8)) 5 { x := 0, d := 1, onb := true } 1
        (1 / 2)).1.boundary = false ∧
      (propagate (stuckEnv 10 (1 / 8)) 5 { x := 0, d := 1, onb := true } 1
        (1 / 2)).2.state_.state.pos
        = min (stuckEnv 10 (1 / 8)).options.bump_distance (1 / 2)
            • make_unit_vector (stuckEnv 10 (1 / 8)).nrm
              (substep_run (stuckEnv 10 (1 / 8)) 5 (init_substepper
                (stuckEnv 10 (1 / 8))
                { x := 0, d := 1, onb := true } 1 (1 / 2))).state_.state.mom
          + (substep_run (stuckEnv 10 (1 / 8)) 5 (init_substepper
              (stuckEnv 10 (1 / 8))
              { x := 0, d := 1, onb := true } 1 (1 / 2))).state_.state.pos ∧
      (propagate (stuckEnv 10 (1 / 8)) 5 { x := 0, d := 1, onb := true } 1
        (1 / 2)).2.state_.geo
        = (stuckEnv 10 (1 / 8)).O.move_internal
            ((stuckEnv 10 (1 / 8)).O.set_dir
              (substep_run (stuckEnv 10 (1 / 8)) 5 (init_substepper
                (stuckEnv 10 (1 / 8))
                { x := 0, d := 1, onb := true } 1 (1 / 2))).state_.geo
              (make_unit_vector (stuckEnv 10 (1 / 8)).nrm
                (substep_run (stuckEnv 10 (1 / 8)) 5 (init_substepper
                  (stuckEnv 10 (1 / 8))
                  { x := 0, d := 1, onb := true } 1 (1 / 2))).state_.state.mom))
            (min (stuckEnv 10 (1 / 8)).options.bump_distance (1 / 2)
              • make_unit_vector (stuckEnv 10 (1 / 8)).nrm
                (substep_run (stuckEnv 10 (1 / 8)) 5 (init_substepper
                  (stuckEnv 10 (1 / 8))
                  { x := 0, d := 1, onb := true } 1 (1 / 2))).state_.state.mom
              + (substep_run (stuckEnv 10 (1 / 8)) 5 (init_substepper
                  (stuckEnv 10 (1 / 8))
                  { x := 0, d := 1, onb := true } 1 (1 / 2))).state_.state.pos)) :=
  ⟨stuckEnv_contracts _ _ (by norm_num) (by norm_num), by decide,
    spec_c5_amended _ (stuckEnv_contracts _ _ (by norm_num) (by norm_num)) _ 1
      (1 / 2) 5 (by norm_num) (by decide)⟩

section ShaveLemmas

theorem shaveState_eq (t : ℚ) :
    shaveState t =
      { propagation_step_ := 2
        options_ := mkOptions 1 1
        state_ :=
          { geo := { x := 0, d := 1, onb := false }
            state := { pos := 0, mom := 1 }
            boundary := false }
        travelled_ := 0
        trial_substep_ := t
        remaining_substeps_ := 100 } := by
  unfold shaveState shaveInit init_substepper
  simp only [shaveEnv, shaveOps, mkGeoOps, FieldPropagatorOptions.max_substeps,
    one_smul]

theorem shave_contracts : ContractsHold shaveEnv := by
  refine ⟨qabs_laws, ?_, ?_, ?_, ?_⟩
  · refine mkGeoOps_contracts _ _ ?_ ?_
    · intro g m hm
      simp only
      exact max_le hm (by linarith)
    · intro g m hm
      exact le_max_left _ _
  · constructor
    · intro t s ht; exact ht
    · intro t s ht; exact le_rfl
  · norm_num [shaveEnv, mkOptions, FieldPropagatorOptions.delta_intersection]
  · norm_num [shaveEnv, mkOptions, FieldPropagatorOptions.minimum_substep]

theorem shave_iter (t : ℚ) (h1 : 1 < t) (h2 : t ≤ 2) :
    substep_iter shaveEnv (shaveState t) = shaveState ((t + 1) / 2) := by
  have ht1 : (0 : ℚ) < t - 1 := by linarith
  have hLpos : (0 : ℚ) < 4 * t / (t - 1) := div_pos (by linarith) ht1
  have hLne : 4 * t / (t - 1) ≠ 0 := ne_of_gt hLpos
  have hL8 : (8 : ℚ) ≤ 4 * t / (t - 1) := by
    rw [le_div_iff₀ ht1]
    nlinarith
  have hchord : make_chord (fun q : ℚ => |q|) 0 (0 + 4 * t / (t - 1))
      = { length := 4 * t / (t - 1), dir := 1 } := by
    unfold make_chord
    have hba : (0 : ℚ) + 4 * t / (t - 1) - 0 = 4 * t / (t - 1) := by ring
    congr 1
    · show |(0 : ℚ) + 4 * t / (t - 1) - 0| = 4 * t / (t - 1)
      rw [hba, abs_of_pos hLpos]
    · show (|(0 : ℚ) + 4 * t / (t - 1) - 0|)⁻¹ • ((0 : ℚ) + 4 * t / (t - 1) - 0)
        = 1
      rw [hba, abs_of_pos hLpos, smul_eq_mul, inv_mul_cancel₀ hLne]
  have hfind : NextStepFinder shaveOps (mkOptions 1 1)
      { length := 4 * t / (t - 1), dir := 1 } { x := 0, d := 1, onb := false }
      = ({ distance := 4 * t / (t - 1) - 2, boundary := true, looping := false },
        { x := 0, d := 1, onb := false }) := by
    unfold NextStepFinder shaveOps mkGeoOps mkOptions
      FieldPropagatorOptions.minimum_substep
      FieldPropagatorOptions.delta_intersection
    rw [if_pos (by simp only; linarith)]
    simp only
    rw [show 4 * t / (t - 1) + 1 - 3 = 4 * t / (t - 1) - 2 by ring]
    rw [max_eq_right (by linarith)]
  have hdrv : shaveEnv.advance t (OdeState.mk (0 : ℚ) 1)
      = { step := t, state := { pos := 0 + 4 * t / (t - 1), mom := 1 } } := by
    unfold shaveEnv stretchDriver
    rfl
  have htrial : trial_of shaveEnv (shaveState t) =
      (({ options := mkOptions 1 1
          start_pos := 0
          start_boundary := false
          substep_ := { step := t, state := { pos := 0 + 4 * t / (t - 1), mom := 1 } }
          chord_ := { length := 4 * t / (t - 1), dir := 1 }
          linear_step_ :=
            { distance := 4 * t / (t - 1) - 2, boundary := true, looping := false }
          scaled_substep_ := (4 * t / (t - 1) - 2) / (4 * t / (t - 1)) * t } :
            detail.TrialSubstep ℚ),
       ({ x := 0, d := 1, onb := false } : MockGeo)) := by
    rw [shaveState_eq]
    unfold trial_of detail.TrialSubstep.make
    simp only [shaveState_eq, hdrv]
    rw [show shaveEnv.nrm = (fun q : ℚ => |q|) from rfl,
      show shaveEnv.O = shaveOps from rfl,
      show shaveEnv.options = mkOptions 1 1 from rfl]
    simp only [hchord, hfind]
  have hscaled : (4 * t / (t - 1) - 2) / (4 * t / (t - 1)) * t = (t + 1) / 2 := by
    field_simp
    ring
  have hdk : dispatch_kind shaveEnv.nrm (trial_of shaveEnv (shaveState t)).1
      = .to_retry_hit := by
    rw [htrial]
    unfold dispatch_kind detail.TrialSubstep.no_boundary
      detail.TrialSubstep.stuck detail.TrialSubstep.length_almost_boundary
      detail.TrialSubstep.endpoint_near_boundary
      detail.TrialSubstep.degenerate_chord is_intercept_close
    simp only [Bool.not_true, Bool.false_and, Bool.true_and, Bool.false_or]
    rw [if_neg (by simp)]
    rw [if_neg (by simp)]
    rw [if_neg ?side]
    case side =>
      simp only [Bool.or_eq_true, decide_eq_true_eq]
      push_neg
      refine ⟨⟨?_, ?_⟩, ?_⟩
      · rw [hscaled]
        show (mkOptions 1 1).minimum_substep < (t + 1) / 2
        unfold mkOptions FieldPropagatorOptions.minimum_substep
        simp only
        linarith
      · show (mkOptions 1 1).delta_intersection
          < |(0 : ℚ) + (4 * t / (t - 1) - 2) • (1 : ℚ) - (0 + 4 * t / (t - 1))|
        unfold mkOptions FieldPropagatorOptions.delta_intersection
        rw [smul_eq_mul, mul_one]
        rw [show (0 : ℚ) + (4 * t / (t - 1) - 2) - (0 + 4 * t / (t - 1))
          = -2 by ring]
        norm_num
      · exact hLne
  rw [substep_iter_eq, hdk]
  show (with_geo (shaveState t) (trial_of shaveEnv (shaveState t)).2).retry_hit
    (trial_of shaveEnv (shaveState t)).1 = _
  rw [htrial]
  unfold with_geo FieldSubstepper.retry_hit detail.TrialSubstep.scaled_substep
  rw [shaveState_eq, shaveState_eq]
  simp only [hscaled]

theorem shave_status (t : ℚ) (h1 : 1 < t) : (shaveState t).status = .iterating := by
  rw [status_iterating_iff]
  constructor
  · show (mkOptions 1 1).minimum_substep < t
    unfold mkOptions FieldPropagatorOptions.minimum_substep
    simpa using h1
  · show (0 : ℤ) < 100
    norm_num

theorem shaveSeq_bounds :
    ∀ (n : ℕ) (t : ℚ), 1 < t → t ≤ 2 → 1 < shaveSeq t n ∧ shaveSeq t n ≤ 2
  | 0, t, ha, hb => ⟨ha, hb⟩
  | n + 1, t, ha, hb =>
    shaveSeq_bounds n ((t + 1) / 2) (by linarith) (by linarith)

theorem shave_run :
    ∀ (n : ℕ) (t : ℚ), 1 < t → t ≤ 2 →
      substep_run shaveEnv n (shaveState t) = shaveState (shaveSeq t (n + 1))
  | 0, t, ha, hb => by
    show substep_iter shaveEnv (shaveState t) = _
    rw [shave_iter t ha hb]
    rfl
  | n + 1, t, ha, hb => by
    unfold substep_run
    rw [shave_iter t ha hb, if_pos (shave_status _ (by linarith))]
    exact shave_run n ((t + 1) / 2) (by linarith) (by linarith)

end ShaveLemmas

section MeasureLemmas

variable {V G : Type} [AddCommGroup V] [Module ℚ V]

theorem rsteps_mono (o : FieldPropagatorOptions) (hd : 0 < o.decr) {a b : ℚ}
    (h : a ≤ b) : o.rsteps a ≤ o.rsteps b := by
  unfold FieldPropagatorOptions.rsteps
  have : (a - o.minimum_substep) / o.decr ≤ (b - o.minimum_substep) / o.decr :=
    (div_le_div_right hd).mpr (by linarith)
  exact Int.toNat_le_toNat (Int.ceil_le_ceil this)

theorem rsteps_pos (o : FieldPropagatorOptions) (hd : 0 < o.decr) {q : ℚ}
    (h : o.minimum_substep < q) : 1 ≤ o.rsteps q := by
  unfold FieldPropagatorOptions.rsteps
  have h1 : (0 : ℚ) < (q - o.minimum_substep) / o.decr :=
    div_pos (by linarith) hd
  have h2 : (0 : ℤ) < Int.ceil ((q - o.minimum_substep) / o.decr) :=
    Int.ceil_pos.mpr h1
  omega

theorem rsteps_eq_zero (o : FieldPropagatorOptions) (hd : 0 < o.decr) {q : ℚ}
    (h : q ≤ o.minimum_substep) : o.rsteps q = 0 := by
  unfold FieldPropagatorOptions.rsteps
  have h1 : (q - o.minimum_substep) / o.decr ≤ 0 :=
    div_nonpos_of_nonpos_of_nonneg (by linarith) (le_of_lt hd)
  have h2 : Int.ceil ((q - o.minimum_substep) / o.decr) ≤ 0 := by
    rw [show (0 : ℤ) = Int.ceil (0 : ℚ) by simp]
    exact Int.ceil_le_ceil h1
  omega

theorem rsteps_lt (o : FieldPropagatorOptions) (hd : 0 < o.decr) {q q' : ℚ}
    (hq : o.minimum_substep < q) (h : q' ≤ q - o.decr) :
    o.rsteps q' < o.rsteps q := by
  have hp := rsteps_pos o hd hq
  unfold FieldPropagatorOptions.rsteps at hp ⊢
  have h1 : (q' - o.minimum_substep) / o.decr
      ≤ (q - o.minimum_substep) / o.decr - 1 := by
    rw [show (q - o.minimum_substep) / o.decr - 1
      = (q - o.minimum_substep - o.decr) / o.decr by
        field_simp]
    exact (div_le_div_right hd).mpr (by linarith)
  have h2 : Int.ceil ((q' - o.minimum_substep) / o.decr)
      ≤ Int.ceil ((q - o.minimum_substep) / o.decr) - 1 := by
    have := Int.ceil_le_ceil h1
    rwa [Int.ceil_sub_one] at this
  omega

theorem measure_arith_accept {R B r1 r2 : ℕ} (hR : 1 ≤ R) (h1 : r1 ≤ B) :
    (R - 1) * (B + 1) + r1 < R * (B + 1) + r2 := by
  obtain ⟨T, rfl⟩ : ∃ T, R = T + 1 := ⟨R - 1, by omega⟩
  simp only [Nat.add_sub_cancel]
  calc T * (B + 1) + r1 < T * (B + 1) + (B + 1) + r2 := by omega
    _ = (T + 1) * (B + 1) + r2 := by ring

theorem measure_decreases {E : PropEnv V G} (hC : ContractsHold E)
    (hmin : 0 < E.options.minimum_substep)
    (hchord : ∀ (t0 : ℚ) (s0 : OdeState V), 0 < t0 →
      E.nrm ((E.advance t0 s0).state.pos - s0.pos) ≤ (E.advance t0 s0).step)
    {s : FieldSubstepper V G} (hI : Inv E s) (hit : s.status = .iterating) :
    loop_measure E.options (substep_iter E s) < loop_measure E.options s := by
  obtain ⟨hmlt0, hrem⟩ := (status_iterating_iff s).mp hit
  have hmlt : E.options.minimum_substep < s.trial_substep_ := by
    rw [hI.opts_eq] at hmlt0
    exact hmlt0
  obtain ⟨hn, hG, hD, hdelta, hmin0⟩ := hC
  have htp : 0 < s.trial_substep_ := by linarith
  have tf := trial_of_facts ⟨hn, hG, hD, hdelta, hmin0⟩ s htp
  have hd_pos : 0 < E.options.decr := lt_min hdelta (by linarith)
  have hd_le_delta : E.options.decr ≤ E.options.delta_intersection :=
    min_le_left _ _
  have hd_le_min2 : E.options.decr ≤ E.options.minimum_substep / 2 :=
    min_le_right _ _
  have hr_pos : 1 ≤ E.options.rsteps s.trial_substep_ :=
    rsteps_pos _ hd_pos hmlt
  have hRpos : 1 ≤ s.remaining_substeps_.toNat := by omega
  cases hdk : dispatch_kind E.nrm (trial_of E s).1 with
  | to_accept_internal =>
    rw [substep_iter_eq, hdk]
    show (s.remaining_substeps_ - 1).toNat
        * (E.options.rsteps s.propagation_step_ + 1)
        + E.options.rsteps (s.propagation_step_
          - (s.travelled_ + (trial_of E s).1.substep_.step))
      < s.remaining_substeps_.toNat
        * (E.options.rsteps s.propagation_step_ + 1)
        + E.options.rsteps s.trial_substep_
    have hB : E.options.rsteps (s.propagation_step_
        - (s.travelled_ + (trial_of E s).1.substep_.step))
        ≤ E.options.rsteps s.propagation_step_ := by
      apply rsteps_mono _ hd_pos
      have h1 := hI.travelled_nonneg
      have h2 := tf.substep_pos
      linarith
    rw [show (s.remaining_substeps_ - 1).toNat
      = s.remaining_substeps_.toNat - 1 by omega]
    exact measure_arith_accept hRpos hB
  | to_retry_stuck =>
    rw [substep_iter_eq, hdk]
    show s.remaining_substeps_.toNat * (E.options.rsteps s.propagation_step_ + 1)
        + E.options.rsteps ((trial_of E s).1.substep_.step / 2)
      < s.remaining_substeps_.toNat * (E.options.rsteps s.propagation_step_ + 1)
        + E.options.rsteps s.trial_substep_
    apply Nat.add_lt_add_left
    apply rsteps_lt _ hd_pos hmlt
    have h1 := tf.substep_le
    have h2 := tf.substep_pos
    linarith
  | to_accept_likely_boundary =>
    rw [substep_iter_eq, hdk]
    show s.remaining_substeps_.toNat * (E.options.rsteps s.propagation_step_ + 1)
        + E.options.rsteps 0
      < s.remaining_substeps_.toNat * (E.options.rsteps s.propagation_step_ + 1)
        + E.options.rsteps s.trial_substep_
    have hz : E.options.rsteps 0 = 0 :=
      rsteps_eq_zero _ hd_pos (by linarith)
    rw [hz]
    exact Nat.add_lt_add_left hr_pos _
  | to_retry_hit =>
    rw [substep_iter_eq, hdk]
    show s.remaining_substeps_.toNat * (E.options.rsteps s.propagation_step_ + 1)
        + E.options.rsteps (trial_of E s).1.scaled_substep_
      < s.remaining_substeps_.toNat * (E.options.rsteps s.propagation_step_ + 1)
        + E.options.rsteps s.trial_substep_
    obtain ⟨hnb, hst, hla, hne, hdg⟩ := (dispatch_retry_hit_iff E.nrm _).mp hdk
    have hb := no_boundary_false hnb
    have hlen_le : (trial_of E s).1.chord_.length
        ≤ (trial_of E s).1.substep_.step := by
      rw [trial_of_chord, trial_of_substep]
      exact hchord s.trial_substep_ s.state_.state htp
    have hfar := retry_decrease hn tf hdelta hlen_le hdg hb hne
    apply Nat.add_lt_add_left
    apply rsteps_lt _ hd_pos hmlt
    linarith

theorem run_terminates {E : PropEnv V G} (hC : ContractsHold E)
    (hmin : 0 < E.options.minimum_substep)
    (hchord : ∀ (t0 : ℚ) (s0 : OdeState V), 0 < t0 →
      E.nrm ((E.advance t0 s0).state.pos - s0.pos) ≤ (E.advance t0 s0).step) :
    ∀ (n : ℕ) (s : FieldSubstepper V G), Inv E s → s.status = .iterating →
      loop_measure E.options s ≤ n + 1 →
      (substep_run E n s).status ≠ .iterating
  | 0, s, hI, hst, hm => by
    intro hit
    have hit' : (substep_iter E s).status = .iterating := hit
    obtain ⟨htp, hrem⟩ := iterating_trial_rem hC hI hst
    have hd1 := measure_decreases hC hmin hchord hI hst
    have hI1 : Inv E (substep_iter E s) := inv_step hC hI htp hrem
    have hd2 := measure_decreases hC hmin hchord hI1 hit'
    omega
  | n + 1, s, hI, hst, hm => by
    unfold substep_run
    obtain ⟨htp, hrem⟩ := iterating_trial_rem hC hI hst
    have hI1 : Inv E (substep_iter E s) := inv_step hC hI htp hrem
    split_ifs with h
    · refine run_terminates hC hmin hchord n _ hI1 h ?_
      have := measure_decreases hC hmin hchord hI hst
      omega
    · exact h

/-- If the first (forced) loop body already leaves a non-iterating status,
the do-while loop returns that state whatever the fuel. -/
theorem run_of_first_exit (E : PropEnv V G) (n : ℕ) (s : FieldSubstepper V G)
    (h : (substep_iter E s).status ≠ .iterating) :
    substep_run E n s = substep_iter E s := by
  cases n with
  | zero => rfl
  | succ m =>
    unfold substep_run
    rw [if_neg h]

/-- A loop body executed with the trial equal to the full remaining budget
and at most the minimum substep (the forced first body of a small step
request) produces a trial at most the minimum substep again, so the status
test after it fails: every dispatch shrinks the trial. -/
theorem forced_step_small {E : PropEnv V G} (hC : ContractsHold E)
    {s : FieldSubstepper V G} (hI : Inv E s) (htp : 0 < s.trial_substep_)
    (heq : s.propagation_step_ - s.travelled_ = s.trial_substep_)
    (hsmall : s.trial_substep_ ≤ E.options.minimum_substep) :
    (substep_iter E s).status ≠ .iterating := by
  obtain ⟨hn, hG, hD, hdelta, hmin0⟩ := hC
  have tf := trial_of_facts ⟨hn, hG, hD, hdelta, hmin0⟩ s htp
  intro hit
  cases hdk : dispatch_kind E.nrm (trial_of E s).1 with
  | to_accept_internal =>
    rw [substep_iter_eq, hdk, status_iterating_iff] at hit
    obtain ⟨h1, -⟩ := hit
    have h1' : s.options_.minimum_substep
        < s.propagation_step_ - (s.travelled_ + (trial_of E s).1.substep_.step) :=
      h1
    rw [hI.opts_eq] at h1'
    have h2 := tf.substep_pos
    linarith
  | to_retry_stuck =>
    rw [substep_iter_eq, hdk, status_iterating_iff] at hit
    obtain ⟨h1, -⟩ := hit
    have h1' : s.options_.minimum_substep
        < (trial_of E s).1.substep_.step / 2 := h1
    rw [hI.opts_eq] at h1'
    have h2 := tf.substep_le
    have h3 := tf.substep_pos
    linarith
  | to_accept_likely_boundary =>
    rw [substep_iter_eq, hdk, status_iterating_iff] at hit
    obtain ⟨h1, -⟩ := hit
    have h1' : s.options_.minimum_substep < (0 : ℚ) := h1
    rw [hI.opts_eq] at h1'
    linarith
  | to_retry_hit =>
    rw [substep_iter_eq, hdk, status_iterating_iff] at hit
    obtain ⟨h1, -⟩ := hit
    have h1' : s.options_.minimum_substep < (trial_of E s).1.scaled_substep_ :=
      h1
    rw [hI.opts_eq] at h1'
    obtain ⟨hnb, hstk, hla, hne, hdg⟩ := (dispatch_retry_hit_iff E.nrm _).mp hdk
    have hb := no_boundary_false hnb
    have hlt := retry_scaled_lt hn tf hdelta hdg hb hne
    have h2 := tf.substep_le
    linarith

/-- Termination of the do-while substep loop from the initial state: if the
status test before the chained continuation holds, the ranking measure
chain terminates within the fuel bound; otherwise the step request is at
most the minimum substep, the single forced body runs, and it leaves a
non-iterating status. -/
theorem loop_terminates {E : PropEnv V G} (hC : ContractsHold E)
    (hmin : 0 < E.options.minimum_substep)
    (hchord : ∀ (t0 : ℚ) (s0 : OdeState V), 0 < t0 →
      E.nrm ((E.advance t0 s0).state.pos - s0.pos) ≤ (E.advance t0 s0).step)
    (g0 : G) (p0 step : ℚ) (hstep : 0 < step) :
    (substep_run E (fuel_bound E.options step)
      (init_substepper E g0 p0 step)).status ≠ .iterating := by
  by_cases hst : (init_substepper E g0 p0 step).status = .iterating
  · refine run_terminates hC hmin hchord _ _ (inv_init g0 p0 step hstep) hst ?_
    have hμ : loop_measure E.options (init_substepper E g0 p0 step)
        = fuel_bound E.options step := rfl
    omega
  · have hrem : (0 : ℤ) < (init_substepper E g0 p0 step).remaining_substeps_ := by
      norm_num [init_substepper, FieldPropagatorOptions.max_substeps]
    have hsmall : step ≤ E.options.minimum_substep := by
      by_contra hlt
      push_neg at hlt
      exact hst ((status_iterating_iff _).mpr ⟨hlt, hrem⟩)
    have hforced := forced_step_small hC (inv_init g0 p0 step hstep) hstep
      (sub_zero step) hsmall
    rw [run_of_first_exit E _ _ hforced]
    exact hforced

end MeasureLemmas

/-- Counterexample for C6 as stated: an environment whose driver returns
`0 < step <= requested trial` and whose geometry returns
`distance <= cap`, yet the substep loop iterates forever.  The driver
reports end positions whose chord is far longer than the arc, so every
iteration dispatches to `retry_hit` (`update_trial_step`) and the trial
substep decreases without ever reaching the minimum substep: after any
number of iterations the status is still `iterating`. -/
theorem spec_c6_counterexample :
    ContractsHold shaveEnv ∧
      ∀ n : ℕ, (substep_run shaveEnv n shaveInit).status = .iterating := by
  refine ⟨shave_contracts, fun n => ?_⟩
  have h2 : shaveInit = shaveState 2 := rfl
  rw [h2, shave_run n 2 (by norm_num) le_rfl]
  exact shave_status _ (shaveSeq_bounds (n + 1) 2 (by norm_num) le_rfl).1

/-- C6 amended: under the stated contracts plus a positive minimum substep
and the physical driver guarantee that the chord between the start and end
positions is no longer than the achieved arc (`nrm(end - start) <= step`),
the do-while substep loop reaches a non-iterating status within an explicit
fuel bound; moreover at every executed dispatch to `retry_hit`
(`update_trial_step`) — the forced first body at the initial state as well
as every later iterating state — the asserted strict decrease
`scaled_substep < trial_substep` holds, and `retry_hit` does not decrement
`remaining_substeps_`. -/
theorem spec_c6_amended (E : PropEnv V G) (hC : ContractsHold E)
    (hmin : 0 < E.options.minimum_substep)
    (hchord : ∀ (t0 : ℚ) (s0 : OdeState V), 0 < t0 →
      E.nrm ((E.advance t0 s0).state.pos - s0.pos) ≤ (E.advance t0 s0).step)
    (g0 : G) (p0 step : ℚ) (hstep : 0 < step) :
    (substep_run E (fuel_bound E.options step)
        (init_substepper E g0 p0 step)).status ≠ .iterating ∧
      (dispatch_kind E.nrm
          (trial_of E (init_substepper E g0 p0 step)).1 = .to_retry_hit →
        ((trial_of E (init_substepper E g0 p0 step)).1.scaled_substep_
          < (init_substepper E g0 p0 step).trial_substep_ ∧
        ((init_substepper E g0 p0 step).retry_hit
            (trial_of E (init_substepper E g0 p0 step)).1).remaining_substeps_
          = (init_substepper E g0 p0 step).remaining_substeps_)) ∧
      (∀ n : ℕ,
        (substep_run E n (init_substepper E g0 p0 step)).status = .iterating →
        dispatch_kind E.nrm
          (trial_of E (substep_run E n (init_substepper E g0 p0 step))).1
            = .to_retry_hit →
        ((trial_of E
            (substep_run E n (init_substepper E g0 p0 step))).1.scaled_substep_
          < (substep_run E n (init_substepper E g0 p0 step)).trial_substep_ ∧
        ((substep_run E n (init_substepper E g0 p0 step)).retry_hit
            (trial_of E (substep_run E n
              (init_substepper E g0 p0 step))).1).remaining_substeps_
          = (substep_run E n
              (init_substepper E g0 p0 step)).remaining_substeps_)) := by
  refine ⟨loop_terminates hC hmin hchord g0 p0 step hstep, ?_, ?_⟩
  · intro hdk
    obtain ⟨hn, hG, hD, hdelta, hmin0⟩ := hC
    have htp : 0 < (init_substepper E g0 p0 step).trial_substep_ := hstep
    have tf := trial_of_facts ⟨hn, hG, hD, hdelta, hmin0⟩
      (init_substepper E g0 p0 step) htp
    obtain ⟨hnb, hst, hla, hne, hdg⟩ := (dispatch_retry_hit_iff E.nrm _).mp hdk
    have hb := no_boundary_false hnb
    have hlt := retry_scaled_lt hn tf hdelta hdg hb hne
    refine ⟨by linarith [tf.substep_le], rfl⟩
  · intro n hit hdk
    have hI := inv_run hC n (init_substepper E g0 p0 step)
      (inv_init g0 p0 step hstep) hstep
      (by norm_num [init_substepper, FieldPropagatorOptions.max_substeps])
    set sn := substep_run E n (init_substepper E g0 p0 step) with hsn
    obtain ⟨hmlt0, hrem⟩ := (status_iterating_iff sn).mp hit
    obtain ⟨hn, hG, hD, hdelta, hmin0⟩ := hC
    have htp : 0 < sn.trial_substep_ := by
      rw [hI.opts_eq] at hmlt0
      linarith
    have tf := trial_of_facts ⟨hn, hG, hD, hdelta, hmin0⟩ sn htp
    obtain ⟨hnb, hst, hla, hne, hdg⟩ := (dispatch_retry_hit_iff E.nrm _).mp hdk
    have hb := no_boundary_false hnb
    have hlt := retry_scaled_lt hn tf hdelta hdg hb hne
    refine ⟨by linarith [tf.substep_le], rfl⟩

/-- Witness for the amended C6 at a concrete environment: free geometry,
idle driver (zero chord), positive minimum substep. -/
theorem spec_c6_amended_witness :
    ContractsHold (freeEnv 1 2) ∧
      0 < (freeEnv 1 2).options.minimum_substep ∧ (0 : ℚ) < 1 ∧
      (substep_run (freeEnv 1 2) (fuel_bound (freeEnv 1 2).options 1)
        (init_substepper (freeEnv 1 2) { x := 0, d := 1, onb := false } 1
          1)).status ≠ .iterating :=
  ⟨freeEnv_contracts _ _ (by norm_num) (by norm_num),
    by norm_num [freeEnv, mkOptions, FieldPropagatorOptions.minimum_substep],
    by norm_num,
    (spec_c6_amended (freeEnv 1 2)
      (freeEnv_contracts _ _ (by norm_num) (by norm_num))
      (by norm_num [freeEnv, mkOptions, FieldPropagatorOptions.minimum_substep])
      (by
        intro t0 s0 ht
        show |s0.pos - s0.pos| ≤ t0
        simp only [sub_self, abs_zero]
        exact le_of_lt ht)
      { x := 0, d := 1, onb := false } 1 1 (by norm_num)).1⟩

/-- Counterexample for C7 as stated: a degenerate chord whose geometry
query still reports a boundary within the `delta_intersection` overreach,
but for which the propagator dispatch does not take the
`accept_likely_boundary` transition, because the `stuck` predicate (start
on boundary, intercept closer than the bump distance) preempts it and
`retry_stuck` is taken instead. -/
theorem spec_c7_counterexample :
    degTrial.degenerate_chord = true ∧
      degTrial.linear_step_.boundary = true ∧
      degTrial.linear_step_.distance ≤ (mkOptions 1 1).delta_intersection ∧
      dispatch_kind (fun q : ℚ => |q|) degTrial ≠ .to_accept_likely_boundary ∧
      dispatch_kind (fun q : ℚ => |q|) degTrial = .to_retry_stuck :=
  ⟨by decide, by decide, by decide, by decide, by decide⟩

/-- C7 amended: on a degenerate chord with a reported boundary, provided
the `stuck` predicate does not preempt the dispatch, the
`accept_likely_boundary` transition is taken and zeroes the trial substep;
in the IEEE value model of `scaled_substep_ = (distance / 0) * substep`
(an infinity when the reported distance is positive), the travelled
distance grows by exactly `trial.substep`.  (In the exact rational
embedding the same expression evaluates to zero instead; the IEEE model is
the faithful one for this path.) -/
theorem spec_c7_amended (nrm : V → ℚ) (O : GeoOps V G)
    (s : FieldSubstepper V G) (t : detail.TrialSubstep V) (trav : ℚ)
    (hdeg : t.degenerate_chord = true)
    (hb : t.linear_step_.boundary = true)
    (hns : t.stuck = false)
    (hdist : 0 < t.linear_step_.distance)
    (hstep : 0 < t.substep_.step) :
    dispatch_kind nrm t = .to_accept_likely_boundary ∧
      (s.accept_likely_boundary O t).trial_substep_ = 0 ∧
      travelled_update_ieee trav t.linear_step_.distance t.chord_.length
        t.substep_.step = .fin (trav + t.substep_.step) := by
  have hlen : t.chord_.length = 0 := by
    unfold detail.TrialSubstep.degenerate_chord at hdeg
    simpa using hdeg
  refine ⟨?_, ?_, ?_⟩
  · unfold dispatch_kind
    rw [if_neg, if_neg, if_pos]
    · rw [hdeg]
      simp
    · rw [hns]
      simp
    · unfold detail.TrialSubstep.no_boundary
      rw [hb]
      simp
  · unfold FieldSubstepper.accept_likely_boundary
    split_ifs <;> rfl
  · rw [hlen]
    have h1 : FReal.fdiv (.fin t.linear_step_.distance) (.fin 0) = .pinf := by
      simp only [FReal.fdiv]
      simp [hdist]
    have h2 : FReal.fmul .pinf (.fin t.substep_.step) = .pinf := by
      simp only [FReal.fmul]
      rw [if_pos hstep]
    have h3 : FReal.cxx_min .pinf (.fin t.substep_.step)
        = .fin t.substep_.step := by
      simp [FReal.cxx_min, FReal.flt]
    unfold travelled_update_ieee scaled_substep_ieee
    rw [h1, h2, h3]
    simp [FReal.fadd]

/-- Witness for the amended C7: degenerate chord, boundary reported at
distance 1/2, track off the boundary. -/
theorem spec_c7_amended_witness :
    degTrialW.degenerate_chord = true ∧
      degTrialW.linear_step_.boundary = true ∧
      degTrialW.stuck = false ∧
      0 < degTrialW.linear_step_.distance ∧
      0 < degTrialW.substep_.step ∧
      (dispatch_kind (fun q : ℚ => |q|) degTrialW
          = .to_accept_likely_boundary ∧
        (sampleSub.accept_likely_boundary freeOps degTrialW).trial_substep_
          = 0 ∧
        travelled_update_ieee 7 degTrialW.linear_step_.distance
          degTrialW.chord_.length degTrialW.substep_.step
          = .fin (7 + degTrialW.substep_.step)) :=
  ⟨by decide, by decide, by decide, by decide, by decide,
    spec_c7_amended (fun q : ℚ => |q|) freeOps sampleSub degTrialW 7
      (by decide) (by decide) (by decide) (by decide) (by decide)⟩

theorem farOps_contracts : GeoContracts farOps := by
  refine mkGeoOps_contracts _ _ ?_ ?_
  · intro g m hm
    split_ifs with h
    · exact h
    · exact le_rfl
  · intro g m hm
    split_ifs with h
    · exact le_max_left _ _
    · exact hm

/-- Counterexample for C8 as stated: a geometry with a single surface far
away, a safety credit of zero, and a unit chord.  The safety-accelerated
finder refreshes its credit, takes the skip path, and returns a
value-initialized `Propagation` with `distance = 0` (not the search
distance) while leaving the geometry direction untouched; the base finder
sets the chord direction and returns the capped distance.  Result and
final geometry state both differ. -/
theorem spec_c8_counterexample :
    GeoContracts farOps ∧
      (NextStepSafetyFinder farOps (mkOptions 1 (1 / 2))
          { length := 1, dir := 1 } { x := 0, d := 5, onb := false } 0).prop
        ≠ (NextStepFinder farOps (mkOptions 1 (1 / 2))
            { length := 1, dir := 1 } { x := 0, d := 5, onb := false }).1 ∧
      (NextStepSafetyFinder farOps (mkOptions 1 (1 / 2))
          { length := 1, dir := 1 } { x := 0, d := 5, onb := false } 0).geo
        ≠ (NextStepFinder farOps (mkOptions 1 (1 / 2))
            { length := 1, dir := 1 } { x := 0, d := 5, onb := false }).2 ∧
      (NextStepSafetyFinder farOps (mkOptions 1 (1 / 2))
          { length := 1, dir := 1 } { x := 0, d := 5, onb := false } 0).prop.distance
        ≠ 1 + (mkOptions 1 (1 / 2)).delta_intersection :=
  ⟨farOps_contracts, by decide, by decide, by decide⟩

/-- C8 amended: when the refreshed safety credit is not positive
(fall-through) and the chord is at least the minimum substep, the
safety-accelerated finder returns the same `Propagation` as the base
finder with the same final geometry state (given that `find_safety` does
not mutate the state); on the skip path it returns the value-initialized
`{distance = 0, boundary = false}` and leaves the geometry unchanged. -/
theorem spec_c8_amended (O : GeoOps V G) (opts : FieldPropagatorOptions)
    (chord : Chord V) (g : G) (safety : ℚ)
    (hpure : ∀ (g' : G) (m : ℚ), (O.find_safety g' m).2 = g') :
    (¬ 0 < (refreshed_safety O opts chord g safety).1 →
      opts.minimum_substep ≤ chord.length →
      ((NextStepSafetyFinder O opts chord g safety).prop
          = (NextStepFinder O opts chord g).1 ∧
        (NextStepSafetyFinder O opts chord g safety).geo
          = (NextStepFinder O opts chord g).2)) ∧
    (0 < (refreshed_safety O opts chord g safety).1 →
      ((NextStepSafetyFinder O opts chord g safety).prop
          = { distance := 0, boundary := false, looping := false } ∧
        (NextStepSafetyFinder O opts chord g safety).geo = g)) := by
  have hgeo : (refreshed_safety O opts chord g safety).2 = g := by
    simp only [refreshed_safety]
    split_ifs
    · exact hpure _ _
    · rfl
  constructor
  · intro hneg hlen
    simp only [NextStepSafetyFinder, NextStepFinder]
    rw [if_neg hneg, if_pos hlen, hgeo]
    exact ⟨rfl, rfl⟩
  · intro hposq
    simp only [NextStepSafetyFinder]
    rw [if_pos hposq, hgeo]
    exact ⟨rfl, rfl⟩

/-- Witness for the amended C8: a fall-through case (the track starts on
the boundary, so the safety is not refreshed and stays non-positive). -/
theorem spec_c8_amended_witness :
    (∀ (g' : MockGeo) (m : ℚ), (farOps.find_safety g' m).2 = g') ∧
      ¬ 0 < (refreshed_safety farOps (mkOptions 1 (1 / 2))
        { length := 1, dir := 1 } { x := 0, d := 5, onb := true } 0).1 ∧
      (mkOptions 1 (1 / 2)).minimum_substep ≤ (1 : ℚ) ∧
      ((NextStepSafetyFinder farOps (mkOptions 1 (1 / 2))
          { length := 1, dir := 1 } { x := 0, d := 5, onb := true } 0).prop
        = (NextStepFinder farOps (mkOptions 1 (1 / 2))
            { length := 1, dir := 1 } { x := 0, d := 5, onb := true }).1 ∧
      (NextStepSafetyFinder farOps (mkOptions 1 (1 / 2))
          { length := 1, dir := 1 } { x := 0, d := 5, onb := true } 0).geo
        = (NextStepFinder farOps (mkOptions 1 (1 / 2))
            { length := 1, dir := 1 } { x := 0, d := 5, onb := true }).2) :=
  ⟨fun g' m => rfl, by decide, by decide,
    (spec_c8_amended farOps (mkOptions 1 (1 / 2)) { length := 1, dir := 1 }
      { x := 0, d := 5, onb := true } 0 (fun g' m => rfl)).1 (by decide)
      (by decide)⟩

theorem recOps_contracts : GeoContracts recOps := by
  refine ⟨?_, ?_, fun _ _ => rfl, fun _ _ => rfl, fun _ _ => rfl,
    fun _ _ => rfl, fun _ _ => rfl, fun _ _ => rfl, fun _ _ => rfl,
    fun _ => rfl⟩
  · intro g m hm
    exact max_le hm le_rfl
  · intro g m hm
    exact le_max_left _ _

/-- Counterexample for C9 as stated: with a unit chord and
`delta_intersection = 1`, the refresh query of the safety-accelerated
finder passes the cap `search_dist + delta_intersection = 3` to
`find_safety` (recorded by an instrumented geometry), not
`2 * search_dist = 4`; and when the post-subtraction safety is exactly
zero (non-positive but not negative), no refresh query is made at all. -/
theorem spec_c9_counterexample :
    GeoContracts recOps ∧
      (NextStepSafetyFinder recOps (mkOptions 1 (1 / 2))
          { length := 1, dir := 1 } { x := 0, d := 5, onb := false, lastcap := 999 } 0).geo.lastcap
        = 1 + (mkOptions 1 (1 / 2)).delta_intersection
          + (mkOptions 1 (1 / 2)).delta_intersection ∧
      (NextStepSafetyFinder recOps (mkOptions 1 (1 / 2))
          { length := 1, dir := 1 } { x := 0, d := 5, onb := false, lastcap := 999 } 0).geo.lastcap
        ≠ 2 * (1 + (mkOptions 1 (1 / 2)).delta_intersection) ∧
      (NextStepSafetyFinder recOps (mkOptions 1 (1 / 2))
          { length := 1, dir := 1 } { x := 0, d := 5, onb := false, lastcap := 999 } 2).geo.lastcap = 999 :=
  ⟨recOps_contracts, by decide, by decide, by decide⟩

/-- C9 amended: at each call the safety-accelerated finder first subtracts
the intended search distance `chord.length + delta_intersection` from the
stored safety credit; exactly when the result is strictly negative and the
track is not on a boundary, it refreshes the credit by querying
`geo.find_safety(search_dist + delta_intersection)` and subtracting the
search distance, before deciding whether to skip the boundary query; the
refreshed value is the safety stored in the result. -/
theorem spec_c9_amended (O : GeoOps V G) (opts : FieldPropagatorOptions)
    (chord : Chord V) (g : G) (safety : ℚ) :
    (NextStepSafetyFinder O opts chord g safety).safety
        = (refreshed_safety O opts chord g safety).1 ∧
      refreshed_safety O opts chord g safety
        = (if safety - (chord.length + opts.delta_intersection) < 0
              ∧ O.is_on_boundary g = false then
            ((O.find_safety g (chord.length + opts.delta_intersection
                + opts.delta_intersection)).1
              - (chord.length + opts.delta_intersection),
             (O.find_safety g (chord.length + opts.delta_intersection
                + opts.delta_intersection)).2)
          else (safety - (chord.length + opts.delta_intersection), g)) := by
  constructor
  · simp only [NextStepSafetyFinder]
    split_ifs <;> rfl
  · unfold refreshed_safety
    rfl

end Claims

end Celeritas
